import Mathlib

/-!
Verification of the Custody Integrity Engine of the chain-of-custody
evidence system: a shallow embedding in Lean 4 of the hash-chained audit
ledger (`backend/core/audit.py`, `backend/api/audit.py`), the custody and
transfer state machine (`backend/api/transfer.py`), the encrypted object
store (`backend/core/crypto.py`), and the evidence/analysis registry
(`backend/api/evidence.py`, `backend/api/analysis.py`), together with
proofs of the spec's testable properties over that embedding.

Conventions of the embedding:
* machine bytes and 32-bit words are `Nat` with explicit `% 2^w` reduction;
* Python `datetime` values are carried as their second-precision UTC
  isoformat strings (the code normalizes every timestamp to that shape
  before hashing, so the string is the hashing-relevant content);
* SQLAlchemy tables are Lean lists kept in primary-key order; `first()` on
  an id-ascending query is `List.find?`, `order_by(id.desc()).first()` is
  the last matching element;
* fallible endpoints return `Except ApiError`; an exception before commit
  rolls the transaction back, so the error branches carry no state.
-/

set_option maxRecDepth 100000

namespace CoC

/-! ## SHA-256 (hashlib.sha256(...).hexdigest() over UTF-8 bytes) -/

/-- 2^32, the modulus for 32-bit word arithmetic. -/
def M32 : Nat := 4294967296

/-- Rotate a 32-bit word right by `n`. -/
def rotr (n w : Nat) : Nat :=
  ((w >>> n) ||| (w <<< (32 - n))) % M32

/-- Logical shift right. -/
def shr (n w : Nat) : Nat := w >>> n

/-- Bitwise complement within 32 bits. -/
def not32 (w : Nat) : Nat := 4294967295 ^^^ w

/-- The 64 SHA-256 round constants. -/
def sha256K : List Nat :=
  [1116352408, 1899447441, 3049323471, 3921009573, 961987163, 1508970993,
   2453635748, 2870763221, 3624381080, 310598401, 607225278, 1426881987,
   1925078388, 2162078206, 2614888103, 3248222580, 3835390401, 4022224774,
   264347078, 604807628, 770255983, 1249150122, 1555081692, 1996064986,
   2554220882, 2821834349, 2952996808, 3210313671, 3336571891, 3584528711,
   113926993, 338241895, 666307205, 773529912, 1294757372, 1396182291,
   1695183700, 1986661051, 2177026350, 2456956037, 2730485921, 2820302411,
   3259730800, 3345764771, 3516065817, 3600352804, 4094571909, 275423344,
   430227734, 506948616, 659060556, 883997877, 958139571, 1322822218,
   1537002063, 1747873779, 1955562222, 2024104815, 2227730452, 2361852424,
   2428436474, 2756734187, 3204031479, 3329325298]

/-- The SHA-256 initial hash state. -/
def sha256H0 : List Nat :=
  [1779033703, 3144134277, 1013904242, 2773480762,
   1359893119, 2600822924, 528734635, 1541459225]

/-- SHA-256 message padding: append 0x80, zeros, and the 64-bit big-endian bit length. -/
def sha256Pad (msg : List Nat) : List Nat :=
  let len := msg.length
  let z := (120 - ((len + 1) % 64)) % 64
  let bitLen := 8 * len
  msg ++ [0x80] ++ List.replicate z 0 ++
    [(bitLen >>> 56) % 256, (bitLen >>> 48) % 256, (bitLen >>> 40) % 256, (bitLen >>> 32) % 256,
     (bitLen >>> 24) % 256, (bitLen >>> 16) % 256, (bitLen >>> 8) % 256, bitLen % 256]

/-- Group bytes into 32-bit big-endian words. -/
def bytesToWords : List Nat → List Nat
  | b0 :: b1 :: b2 :: b3 :: rest =>
      (((b0 <<< 24) + (b1 <<< 16) + (b2 <<< 8) + b3) % M32) :: bytesToWords rest
  | _ => []

/-- Split a word list into 16-word blocks; the fuel argument bounds the recursion. -/
def toBlocksAux : Nat → List Nat → List (List Nat)
  | 0, _ => []
  | _, [] => []
  | fuel + 1, ws => (ws.take 16) :: toBlocksAux fuel (ws.drop 16)

def toBlocks (ws : List Nat) : List (List Nat) :=
  toBlocksAux ws.length ws

/-- Extend a 16-word block to the 64-word message schedule. -/
def schedExtend : Nat → List Nat → List Nat
  | 0, ws => ws
  | n + 1, ws =>
      let i := ws.length
      let w15 := ws.getD (i - 15) 0
      let w2 := ws.getD (i - 2) 0
      let w16 := ws.getD (i - 16) 0
      let w7 := ws.getD (i - 7) 0
      let s0 := (rotr 7 w15) ^^^ (rotr 18 w15) ^^^ (shr 3 w15)
      let s1 := (rotr 17 w2) ^^^ (rotr 19 w2) ^^^ (shr 10 w2)
      schedExtend n (ws ++ [(w16 + s0 + w7 + s1) % M32])

/-- One round of the SHA-256 compression function on the 8-word working state. -/
def sha256Round (st : List Nat) (kw : Nat × Nat) : List Nat :=
  match st with
  | [a, b, c, d, e, f, g, h] =>
      let s1 := (rotr 6 e) ^^^ (rotr 11 e) ^^^ (rotr 25 e)
      let ch := (e &&& f) ^^^ ((not32 e) &&& g)
      let t1 := (h + s1 + ch + kw.1 + kw.2) % M32
      let s0 := (rotr 2 a) ^^^ (rotr 13 a) ^^^ (rotr 22 a)
      let mj := (a &&& b) ^^^ (a &&& c) ^^^ (b &&& c)
      let t2 := (s0 + mj) % M32
      [(t1 + t2) % M32, a, b, c, (d + t1) % M32, e, f, g]
  | st => st

/-- Compress one 512-bit block into the running hash state. -/
def sha256Block (hs : List Nat) (block : List Nat) : List Nat :=
  let w := schedExtend 48 block
  let st := (sha256K.zip w).foldl sha256Round hs
  (hs.zip st).map (fun p => (p.1 + p.2) % M32)

/-- SHA-256 of a byte list, as eight 32-bit words. -/
def sha256Words (msg : List Nat) : List Nat :=
  (toBlocks (bytesToWords (sha256Pad msg))).foldl sha256Block sha256H0

def hexDigit (n : Nat) : Char :=
  if n < 10 then Char.ofNat (48 + n) else Char.ofNat (87 + n)

/-- Render a 32-bit word as 8 lowercase hex characters. -/
def wordToHex (w : Nat) : List Char :=
  [hexDigit ((w >>> 28) % 16), hexDigit ((w >>> 24) % 16), hexDigit ((w >>> 20) % 16),
   hexDigit ((w >>> 16) % 16), hexDigit ((w >>> 12) % 16), hexDigit ((w >>> 8) % 16),
   hexDigit ((w >>> 4) % 16), hexDigit (w % 16)]

/-- SHA-256 lowercase hex digest of a byte list: hashlib.sha256(data).hexdigest(). -/
def sha256HexBytes (msg : List Nat) : String :=
  String.mk ((sha256Words msg).flatMap wordToHex)

/-- UTF-8 encoding of one character, as bytes. -/
def utf8EncodeCharBytes (c : Char) : List Nat :=
  let n := c.toNat
  if n < 0x80 then [n]
  else if n < 0x800 then [0xC0 + (n >>> 6), 0x80 + (n % 64)]
  else if n < 0x10000 then [0xE0 + (n >>> 12), 0x80 + ((n >>> 6) % 64), 0x80 + (n % 64)]
  else [0xF0 + (n >>> 18), 0x80 + ((n >>> 12) % 64), 0x80 + ((n >>> 6) % 64), 0x80 + (n % 64)]

/-- UTF-8 bytes of a string: Python s.encode('utf-8'). -/
def strBytes (s : String) : List Nat :=
  s.data.flatMap utf8EncodeCharBytes

/-- SHA-256 hex digest of the UTF-8 encoding of a string. -/
def sha256HexStr (s : String) : String :=
  sha256HexBytes (strBytes s)

/-- `backend/core/crypto.py` compute_sha256: SHA256 hex digest of raw bytes. -/
def compute_sha256 (data : List Nat) : String :=
  sha256HexBytes data

/-! ## Canonical JSON (json.dumps with sort_keys=True, separators=(',', ':'))

JSON values are a first-order inductive: arrays and objects carry their
elements on an explicit spine (`sNil`/`sCons`/`kvCons`) so that every
function below is plain structural recursion.  Objects are built only
through `jobj`, which sorts the keys by code point exactly as
`sort_keys=True` does at dump time; `json.loads` of a stored dump yields a
value with the same canonical dump, so storing the `Json` value models the
`details_json` round trip. -/

inductive Json where
  | str (s : String)
  | num (n : Nat)
  | arr (sp : Json)
  | obj (sp : Json)
  | sNil
  | sCons (hd tl : Json)
  | kvCons (k : String) (v : Json) (tl : Json)
deriving DecidableEq, Repr

/-- Four lowercase hex digits, as in Python's \uXXXX escapes. -/
def hex4 (n : Nat) : String :=
  String.mk [hexDigit ((n >>> 12) % 16), hexDigit ((n >>> 8) % 16),
             hexDigit ((n >>> 4) % 16), hexDigit (n % 16)]

/-- Escape one character the way json.dumps (ensure_ascii=True) does. -/
def jsonEscapeChar (c : Char) : String :=
  let n := c.toNat
  if c = '\\' then "\\\\"
  else if c = '\"' then "\\\""
  else if n = 8 then "\\b"
  else if n = 9 then "\\t"
  else if n = 10 then "\\n"
  else if n = 12 then "\\f"
  else if n = 13 then "\\r"
  else if n < 0x20 then "\\u" ++ hex4 n
  else if n < 0x7f then String.mk [c]
  else if n < 0x10000 then "\\u" ++ hex4 n
  else
    let m := n - 0x10000
    "\\u" ++ hex4 (0xD800 + (m >>> 10)) ++ "\\u" ++ hex4 (0xDC00 + (m % 1024))

/-- A JSON string literal with escaping. -/
def jsonQuote (s : String) : String :=
  "\"" ++ String.join (s.data.map jsonEscapeChar) ++ "\""

/-- Drop a single leading comma from a rendered spine body. -/
def stripLeadComma (s : String) : String :=
  match s.data with
  | ',' :: rest => String.mk rest
  | _ => s

/-- Canonical compact rendering.  Spines render as ",item,item,..." and the
wrapping `arr`/`obj` constructor strips the lead comma and adds brackets,
giving exactly json.dumps(..., separators=(',', ':')) output. -/
def dumpJson : Json → String
  | .str s => jsonQuote s
  | .num n => toString n
  | .arr sp => "[" ++ stripLeadComma (dumpJson sp) ++ "]"
  | .obj sp => "\x7b" ++ stripLeadComma (dumpJson sp) ++ "\x7d"
  | .sNil => ""
  | .sCons hd tl => "," ++ dumpJson hd ++ dumpJson tl
  | .kvCons k v tl => "," ++ jsonQuote k ++ ":" ++ dumpJson v ++ dumpJson tl

/-- Lexicographic code-point comparison, Python's `<` on str. -/
def charListLt : List Char → List Char → Bool
  | [], [] => false
  | [], _ :: _ => true
  | _ :: _, [] => false
  | c :: cs, d :: ds =>
      if c.toNat < d.toNat then true
      else if d.toNat < c.toNat then false
      else charListLt cs ds

def strLt (a b : String) : Bool := charListLt a.data b.data

/-- Insert into a key-sorted association list (code-point order, as Python
sorted() on str keys). -/
def insertKV (k : String) (v : Json) : List (String × Json) → List (String × Json)
  | [] => [(k, v)]
  | (k', v') :: rest =>
      if strLt k k' then (k, v) :: (k', v') :: rest
      else (k', v') :: insertKV k v rest

def sortKVs : List (String × Json) → List (String × Json)
  | [] => []
  | (k, v) :: rest => insertKV k v (sortKVs rest)

/-- Build an object spine from an association list. -/
def kvSpine : List (String × Json) → Json
  | [] => .sNil
  | (k, v) :: rest => .kvCons k v (kvSpine rest)

/-- A JSON object with keys sorted at construction, matching sort_keys=True. -/
def jobj (kvs : List (String × Json)) : Json :=
  .obj (kvSpine (sortKVs kvs))

/-- Build an array spine from a list. -/
def arrSpine : List Json → Json
  | [] => .sNil
  | x :: rest => .sCons x (arrSpine rest)

def jarr (xs : List Json) : Json :=
  .arr (arrSpine xs)

/-! ## Audit entry hashing (`backend/core/audit.py`) -/

/-- compute_entry_hash: SHA256(prev_hash || canonical_json(entry_data)),
with canonical_json = json.dumps(entry_data, sort_keys=True,
separators=(',', ':')). -/
def compute_entry_hash (prev_hash : String) (entry_data : Json) : String :=
  sha256HexStr (prev_hash ++ dumpJson entry_data)

/-- The canonical entry payload built by create_audit_entry:
evidence_id, actor_user_id, action, details, second-precision UTC ts. -/
def auditEntryData (evidence_id actor_user_id : Nat) (action : String)
    (details : Json) (ts_utc : String) : Json :=
  jobj [("evidence_id", .num evidence_id), ("actor_user_id", .num actor_user_id),
        ("action", .str action), ("details", details), ("ts_utc", .str ts_utc)]

structure AuditEntry where
  evidence_id : Nat
  actor_user_id : Nat
  action : String
  details : Json
  ts_utc : String
  prev_hash_hex : String
  entry_hash_hex : String
deriving DecidableEq, Repr

/-- create_audit_entry: genesis prev_hash is "" when none is supplied; the
timestamp is the caller's wall clock truncated to second precision, passed
here explicitly as `ts`. -/
def create_audit_entry (evidence_id actor_user_id : Nat) (action : String)
    (details : Json) (prev_hash : Option String) (ts : String) : AuditEntry :=
  let prev := prev_hash.getD ""
  let entry_data := auditEntryData evidence_id actor_user_id action details ts
  { evidence_id := evidence_id
    actor_user_id := actor_user_id
    action := action
    details := details
    ts_utc := ts
    prev_hash_hex := prev
    entry_hash_hex := compute_entry_hash prev entry_data }

/-! ## Data model (`backend/models/*.py`)

Tables are lists in primary-key order.  `DateTime` columns hold the
second-precision UTC isoformat string that the code itself normalizes every
timestamp to before hashing or display. -/

inductive UserRole where
  | ADMIN
  | COLLECTOR
  | ANALYST
  | AUDITOR
deriving DecidableEq, Repr

structure User where
  id : Nat
  name : String
  email : String
  role : UserRole
deriving DecidableEq, Repr

structure Evidence where
  id : Nat
  evidence_id_str : String
  evidence_name : Option String
  agency : String
  case_no : String
  offense : String
  item_no : String
  collected_by_user_id : Nat
  badge_no : String
  location : String
  collected_at_utc : String
  description : String
deriving DecidableEq, Repr

structure EvidenceFile where
  id : Nat
  evidence_id : Nat
  orig_filename : String
  mime : String
  size_bytes : Nat
  sha256_hex : String
  cipher_path : String
deriving DecidableEq, Repr

inductive TransferStatus where
  | PENDING
  | ACCEPTED
  | CANCELLED
deriving DecidableEq, Repr

def TransferStatus.value : TransferStatus → String
  | .PENDING => "PENDING"
  | .ACCEPTED => "ACCEPTED"
  | .CANCELLED => "CANCELLED"

/-- `custody` table: unique per evidence_id (unique constraint). -/
structure Custody where
  evidence_id : Nat
  current_user_id : Nat
  since_utc : String
deriving DecidableEq, Repr

structure Transfer where
  id : Nat
  evidence_id : Nat
  from_user_id : Nat
  to_user_id : Nat
  reason : String
  accepted_at_utc : Option String
  status : TransferStatus
deriving DecidableEq, Repr

structure Analysis where
  id : Nat
  evidence_id : Nat
  analysis_at_utc : String
  analysis_by : String
  role : String
  place_of_analysis : String
  description : String
  created_by_user_id : Nat
deriving DecidableEq, Repr

structure AnalysisFile where
  id : Nat
  analysis_id : Nat
  orig_filename : String
  mime : String
  size_bytes : Nat
  sha256_hex : String
  cipher_path : String
deriving DecidableEq, Repr

/-- `audit_logs` row.  `details` holds the JSON value of `details_json`;
json.loads of the stored dump returns this same value, so re-serializing it
canonically at verify time is modelled by `dumpJson` on the stored value. -/
structure AuditLog where
  id : Nat
  evidence_id : Nat
  actor_user_id : Nat
  action : String
  details : Json
  ts_utc : String
  prev_hash_hex : String
  entry_hash_hex : String
deriving DecidableEq, Repr

structure DB where
  users : List User
  evidences : List Evidence
  evidenceFiles : List EvidenceFile
  custodies : List Custody
  transfers : List Transfer
  analyses : List Analysis
  analysisFiles : List AnalysisFile
  auditLogs : List AuditLog
  storage : List (String × List Nat)
  nextEvidenceId : Nat
  nextEvidenceFileId : Nat
  nextTransferId : Nat
  nextAnalysisId : Nat
  nextAnalysisFileId : Nat
  nextAuditId : Nat
deriving Repr

/-- HTTPException, by status code family. -/
inductive ApiError where
  | notFound (detail : String)
  | forbidden (detail : String)
  | badRequest (detail : String)
  | internalError (detail : String)
deriving DecidableEq, Repr

/-! ## Cipher store (`backend/core/crypto.py`)

AES-256-GCM comes from the external `cryptography` library.  GCM is
counter-mode encryption plus an authentication tag, so the library is
modelled by its interface: a keystream function and a tag function, both
arbitrary (`CipherModel`); ciphertext is the byte-wise XOR of the plaintext
with the keystream, and decryption recomputes and checks the tag exactly as
`modes.GCM(nonce, tag)` finalization does.  Everything the repository's own
code does — digest computation, nonce/tag layout, blob storage — is
embedded directly. -/

structure CipherModel where
  ks : List Nat → List Nat → Nat → Nat
  tagOf : List Nat → List Nat → List Nat → List Nat

/-- XOR a byte list against a keystream starting at index `i`. -/
def xorStream (ks : Nat → Nat) : Nat → List Nat → List Nat
  | _, [] => []
  | i, b :: bs => (b ^^^ ks i) :: xorStream ks (i + 1) bs

inductive CryptoError where
  | fileNotFound
  | invalidTag
deriving DecidableEq, Repr

/-- The blob directory: open(path, "wb") overwrites, and reads see the most
recent write, which association-list shadowing models. -/
def lookupBlob : List (String × List Nat) → String → Option (List Nat)
  | [], _ => none
  | (n, b) :: rest, f => if n = f then some b else lookupBlob rest f

/-- encrypt_file_data: SHA256 the plaintext, encrypt under a fresh 12-byte
nonce, store nonce ++ ciphertext ++ 16-byte tag under a fresh random
filename.  The nonce and filename are the caller-supplied randomness.
Returns (storage after the write, cipher_filename, sha256_hex). -/
def encrypt_file_data (C : CipherModel) (key : List Nat)
    (storage : List (String × List Nat)) (nonce : List Nat)
    (cipher_filename : String) (plaintext : List Nat) :
    List (String × List Nat) × String × String :=
  let sha256_hex := compute_sha256 plaintext
  let ciphertext := xorStream (C.ks key nonce) 0 plaintext
  let encrypted_data := nonce ++ ciphertext ++ C.tagOf key nonce ciphertext
  ((cipher_filename, encrypted_data) :: storage, cipher_filename, sha256_hex)

/-- decrypt_file_data: split the blob as nonce(12) + ciphertext + tag(16) by
fixed offsets and decrypt; tag verification failure is the GCM InvalidTag
exception, a missing blob is FileNotFoundError. -/
def decrypt_file_data (C : CipherModel) (key : List Nat)
    (storage : List (String × List Nat)) (cipher_filename : String) :
    Except CryptoError (List Nat) :=
  match lookupBlob storage cipher_filename with
  | none => .error .fileNotFound
  | some encrypted_data =>
      let n := encrypted_data.length
      let nonce := encrypted_data.take 12
      let tag := encrypted_data.drop (n - 16)
      let ciphertext := (encrypted_data.drop 12).take (n - 28)
      if C.tagOf key nonce ciphertext = tag then
        .ok (xorStream (C.ks key nonce) 0 ciphertext)
      else
        .error .invalidTag

/-! ## Shared endpoint helpers -/

/-- Replace the first matching element: `.first()` then mutate. -/
def updateFirst (p : α → Bool) (f : α → α) : List α → List α
  | [] => []
  | x :: xs => if p x then f x :: xs else x :: updateFirst p f xs

/-- Tail entry hash of one evidence item's chain:
order_by(AuditLog.id.desc()).first().entry_hash_hex, or "" with no entries. -/
def lastAuditHash (db : DB) (evid : Nat) : String :=
  match (db.auditLogs.filter (fun l => l.evidence_id == evid)).getLast? with
  | some l => l.entry_hash_hex
  | none => ""

/-- The AuditLog row persisted from a create_audit_entry result. -/
def auditRowOf (db : DB) (evid actor : Nat) (action : String) (details : Json)
    (prev : Option String) (ts : String) : AuditLog :=
  let entry := create_audit_entry evid actor action details prev ts
  { id := db.nextAuditId
    evidence_id := evid
    actor_user_id := actor
    action := entry.action
    details := entry.details
    ts_utc := entry.ts_utc
    prev_hash_hex := entry.prev_hash_hex
    entry_hash_hex := entry.entry_hash_hex }

/-- Build the audit entry via create_audit_entry and persist the AuditLog
row, as every endpoint does inside the same transaction. -/
def appendAudit (db : DB) (evid actor : Nat) (action : String) (details : Json)
    (prev : Option String) (ts : String) : DB :=
  { db with
      auditLogs := db.auditLogs ++ [auditRowOf db evid actor action details prev ts]
      nextAuditId := db.nextAuditId + 1 }

/-! ## Transfer endpoints (`backend/api/transfer.py`) -/

def can_request_transfer (user : User) (custody : Custody) : Bool :=
  custody.current_user_id == user.id

def can_accept_transfer (user : User) (transfer : Transfer) : Bool :=
  transfer.to_user_id == user.id

def request_transfer (db : DB) (current_user : User) (evidence_id to_user_id : Nat)
    (reason ts : String) : Except ApiError (DB × Transfer) :=
  match db.evidences.find? (fun e => e.id == evidence_id) with
  | none => .error (.notFound "Evidence not found")
  | some _ =>
  match db.custodies.find? (fun c => c.evidence_id == evidence_id) with
  | none => .error (.internalError "No custody record found for evidence")
  | some custody =>
  if ¬ can_request_transfer current_user custody then
    .error (.forbidden "Only current custodian can request transfer")
  else
  match db.users.find? (fun u => u.id == to_user_id) with
  | none => .error (.notFound "Recipient user not found")
  | some recipient =>
  match db.transfers.find? (fun t => t.evidence_id == evidence_id && t.status == .PENDING) with
  | some _ => .error (.badRequest "Pending transfer already exists for this evidence")
  | none =>
      let transfer : Transfer := {
        id := db.nextTransferId
        evidence_id := evidence_id
        from_user_id := current_user.id
        to_user_id := to_user_id
        reason := reason
        accepted_at_utc := none
        status := .PENDING }
      let db1 := { db with
        transfers := db.transfers ++ [transfer]
        nextTransferId := db.nextTransferId + 1 }
      let audit_details := jobj [
        ("action", .str "TRANSFER_REQUESTED"), ("transfer_id", .num transfer.id),
        ("from_user", .str current_user.name), ("to_user", .str recipient.name),
        ("reason", .str reason)]
      let db2 := appendAudit db1 evidence_id current_user.id "TRANSFER_REQUESTED"
        audit_details (some (lastAuditHash db1 evidence_id)) ts
      .ok (db2, transfer)

def accept_transfer (db : DB) (current_user : User) (transfer_id : Nat) (ts : String) :
    Except ApiError (DB × Transfer) :=
  match db.transfers.find? (fun t => t.id == transfer_id) with
  | none => .error (.notFound "Transfer not found")
  | some transfer =>
  if ¬ can_accept_transfer current_user transfer then
    .error (.forbidden "Only the recipient can accept this transfer")
  else
  if transfer.status ≠ .PENDING then
    .error (.badRequest ("Transfer is not pending (status: " ++ transfer.status.value ++ ")"))
  else
    let from_user? := db.users.find? (fun u => u.id == transfer.from_user_id)
    let transfer' : Transfer := { transfer with status := .ACCEPTED, accepted_at_utc := some ts }
    let db1 := { db with
      transfers := updateFirst (fun t => t.id == transfer_id) (fun _ => transfer') db.transfers }
    let db2 :=
      match db1.custodies.find? (fun c => c.evidence_id == transfer.evidence_id) with
      | some _ => { db1 with
          custodies := updateFirst (fun c => c.evidence_id == transfer.evidence_id)
            (fun c => { c with current_user_id := current_user.id, since_utc := ts })
            db1.custodies }
      | none => { db1 with
          -- fresh custody row; since_utc comes from the server_default now()
          custodies := db1.custodies ++ [{
            evidence_id := transfer.evidence_id
            current_user_id := current_user.id
            since_utc := ts }] }
    let audit_details := jobj [
      ("action", .str "TRANSFER_ACCEPTED"), ("transfer_id", .num transfer.id),
      ("from_user", .str (match from_user? with | some u => u.name | none => "Unknown")),
      ("to_user", .str current_user.name), ("reason", .str transfer.reason)]
    let db3 := appendAudit db2 transfer.evidence_id current_user.id "TRANSFER_ACCEPTED"
      audit_details (some (lastAuditHash db2 transfer.evidence_id)) ts
    .ok (db3, transfer')

def cancel_transfer (db : DB) (current_user : User) (transfer_id : Nat) (ts : String) :
    Except ApiError (DB × Transfer) :=
  match db.transfers.find? (fun t => t.id == transfer_id) with
  | none => .error (.notFound "Transfer not found")
  | some transfer =>
  if transfer.from_user_id ≠ current_user.id then
    .error (.forbidden "Only the initiator can cancel this transfer")
  else
  if transfer.status ≠ .PENDING then
    .error (.badRequest ("Transfer is not pending (status: " ++ transfer.status.value ++ ")"))
  else
    let to_user? := db.users.find? (fun u => u.id == transfer.to_user_id)
    let transfer' : Transfer := { transfer with status := .CANCELLED }
    let db1 := { db with
      transfers := updateFirst (fun t => t.id == transfer_id) (fun _ => transfer') db.transfers }
    let audit_details := jobj [
      ("action", .str "TRANSFER_CANCELLED"), ("transfer_id", .num transfer.id),
      ("from_user", .str current_user.name),
      ("to_user", .str (match to_user? with | some u => u.name | none => "Unknown")),
      ("reason", .str transfer.reason)]
    let db2 := appendAudit db1 transfer.evidence_id current_user.id "TRANSFER_CANCELLED"
      audit_details (some (lastAuditHash db1 transfer.evidence_id)) ts
    .ok (db2, transfer')

def reject_transfer (db : DB) (current_user : User) (transfer_id : Nat) (ts : String) :
    Except ApiError (DB × Transfer) :=
  match db.transfers.find? (fun t => t.id == transfer_id) with
  | none => .error (.notFound "Transfer not found")
  | some transfer =>
  if ¬ can_accept_transfer current_user transfer then
    .error (.forbidden "Only the recipient can reject this transfer")
  else
  if transfer.status ≠ .PENDING then
    .error (.badRequest ("Transfer is not pending (status: " ++ transfer.status.value ++ ")"))
  else
    let from_user? := db.users.find? (fun u => u.id == transfer.from_user_id)
    let transfer' : Transfer := { transfer with status := .CANCELLED }
    let db1 := { db with
      transfers := updateFirst (fun t => t.id == transfer_id) (fun _ => transfer') db.transfers }
    let audit_details := jobj [
      ("action", .str "TRANSFER_REJECTED"), ("transfer_id", .num transfer.id),
      ("from_user", .str (match from_user? with | some u => u.name | none => "Unknown")),
      ("to_user", .str current_user.name), ("reason", .str transfer.reason)]
    let db2 := appendAudit db1 transfer.evidence_id current_user.id "TRANSFER_REJECTED"
      audit_details (some (lastAuditHash db1 transfer.evidence_id)) ts
    .ok (db2, transfer')

/-! ## Evidence endpoints (`backend/api/evidence.py`) -/

structure Settings where
  max_file_size : Nat
  allowed_mime_types : List String
deriving DecidableEq, Repr

/-- `backend/core/config.py` upload limits: 25 MB, four MIME types. -/
def settings : Settings :=
  { max_file_size := 25 * 1024 * 1024
    allowed_mime_types := ["application/pdf", "image/jpeg", "image/png", "text/plain"] }

/-- A multipart upload: FastAPI UploadFile.  `size` is Optional in FastAPI;
`content` is what .read() returns. -/
structure UploadFile where
  filename : String
  content_type : String
  size : Option Nat
  content : List Nat
deriving DecidableEq, Repr

def can_create_evidence (user : User) : Bool :=
  user.role == .COLLECTOR || user.role == .ANALYST || user.role == .ADMIN

def can_download_files (user : User) (custody : Option Custody) : Bool :=
  match custody with
  | some c => c.current_user_id == user.id
  | none => false

/-- validate_file.  The Python size guard is `if file.size and file.size >
max`: a None (or falsy 0) size skips the check, and 0 cannot exceed the
positive maximum, so the guard is `size = some n` with `n > max`. -/
def validate_file (file : UploadFile) : Except ApiError Unit :=
  if ¬ (settings.allowed_mime_types.contains file.content_type) then
    .error (.badRequest ("File type " ++ file.content_type ++ " not allowed"))
  else
    match file.size with
    | some n =>
        if settings.max_file_size < n then
          .error (.badRequest ("File size exceeds maximum of " ++
            toString settings.max_file_size ++ " bytes"))
        else .ok ()
    | none => .ok ()

/-- The `for file in files: validate_file(file)` loop: first failure wins. -/
def validateFiles : List UploadFile → Except ApiError Unit
  | [] => .ok ()
  | f :: fs =>
      match validate_file f with
      | .ok _ => validateFiles fs
      | .error e => .error e

/-- collected_at.replace('Z', '+00:00'). -/
def replaceZ (s : String) : String :=
  String.mk (s.data.flatMap (fun c => if c = 'Z' then "+00:00".data else [c]))

def isDigitChar (c : Char) : Bool :=
  48 ≤ c.toNat && c.toNat ≤ 57

/-- Success domain of datetime.fromisoformat, modelled on the canonical
subset this system produces and accepts: "YYYY-MM-DD", optionally followed
by "THH:MM:SS" or " HH:MM:SS", optionally with a "±HH:MM" offset.  (CPython
accepts further variants; no claim depends on the exact boundary.) -/
def isoTimeTail : List Char → Bool
  | [h1, h2, ':', m1, m2, ':', s1, s2] =>
      [h1, h2, m1, m2, s1, s2].all isDigitChar
  | [h1, h2, ':', m1, m2, ':', s1, s2, sign, o1, o2, ':', o3, o4] =>
      [h1, h2, m1, m2, s1, s2, o1, o2, o3, o4].all isDigitChar &&
      (sign = '+' || sign = '-')
  | _ => false

def fromisoformatOk (s : String) : Bool :=
  match s.data with
  | y1 :: y2 :: y3 :: y4 :: '-' :: m1 :: m2 :: '-' :: d1 :: d2 :: rest =>
      [y1, y2, y3, y4, m1, m2, d1, d2].all isDigitChar &&
      (match rest with
       | [] => true
       | 'T' :: tl => isoTimeTail tl
       | ' ' :: tl => isoTimeTail tl
       | _ => false)
  | _ => false

/-- One iteration of the create_evidence file loop: encrypt and store the
content, add the EvidenceFile row, record the file_details entry. -/
def addEvidenceFile (C : CipherModel) (key : List Nat) (evidId : Nat)
    (acc : DB × List Json) (fns : UploadFile × List Nat × String) : DB × List Json :=
  let (db, details) := acc
  let (file, nonce, fname) := fns
  let (storage', cipher_path, sha256_hex) :=
    encrypt_file_data C key db.storage nonce fname file.content
  let evidence_file : EvidenceFile := {
    id := db.nextEvidenceFileId
    evidence_id := evidId
    orig_filename := file.filename
    mime := file.content_type
    size_bytes := file.content.length
    sha256_hex := sha256_hex
    cipher_path := cipher_path }
  let detail := jobj [
    ("filename", .str file.filename), ("size_bytes", .num file.content.length),
    ("sha256", .str sha256_hex), ("mime", .str file.content_type)]
  ({ db with
      storage := storage'
      evidenceFiles := db.evidenceFiles ++ [evidence_file]
      nextEvidenceFileId := db.nextEvidenceFileId + 1 },
   details ++ [detail])

/-- create_evidence.  `files` pairs each upload with the fresh randomness
the cipher store draws for it (nonce, blob filename); `ts` is the request's
wall clock, second precision UTC. -/
def create_evidence (C : CipherModel) (key : List Nat) (db : DB) (current_user : User)
    (agency case_no offense item_no badge_no location collected_at description : String)
    (evidence_name : Option String) (files : List (UploadFile × List Nat × String))
    (ts : String) : Except ApiError (DB × Evidence) :=
  if ¬ can_create_evidence current_user then
    .error (.forbidden "Only COLLECTOR, ANALYST or ADMIN can create evidence")
  else
  match db.evidences.find? (fun e => e.case_no == case_no) with
  | some _ => .error (.badRequest "Case number must be unique")
  | none =>
  if files.isEmpty then
    .error (.badRequest "At least one file must be uploaded")
  else
  match validateFiles (files.map (fun f => f.1)) with
  | .error e => .error e
  | .ok _ =>
  if ¬ fromisoformatOk (replaceZ collected_at) then
    .error (.badRequest "Invalid collected_at format. Use ISO-8601")
  else
    let collected_at_utc := replaceZ collected_at
    let evidence_id_str := agency ++ "-" ++ case_no ++ "-" ++ item_no
    match db.evidences.find? (fun e => e.evidence_id_str == evidence_id_str) with
    | some _ => .error (.badRequest ("Evidence ID " ++ evidence_id_str ++ " already exists"))
    | none =>
        let evidence : Evidence := {
          id := db.nextEvidenceId
          evidence_id_str := evidence_id_str
          evidence_name := evidence_name
          agency := agency
          case_no := case_no
          offense := offense
          item_no := item_no
          collected_by_user_id := current_user.id
          badge_no := badge_no
          location := location
          collected_at_utc := collected_at_utc
          description := description }
        let db1 := { db with
          evidences := db.evidences ++ [evidence]
          nextEvidenceId := db.nextEvidenceId + 1 }
        let (db2, file_details) := files.foldl (addEvidenceFile C key evidence.id) (db1, [])
        let db3 := { db2 with
          custodies := db2.custodies ++ [{
            evidence_id := evidence.id
            current_user_id := current_user.id
            since_utc := ts }] }
        let audit_details := jobj [
          ("action", .str "EVIDENCE_CREATED"), ("evidence_id_str", .str evidence_id_str),
          ("files", jarr file_details), ("created_by", .str current_user.name)]
        -- create_evidence passes no prev_hash: genesis "" for the fresh item
        let db4 := appendAudit db3 evidence.id current_user.id "EVIDENCE_CREATED"
          audit_details none ts
        .ok (db4, evidence)

/-- download_file (current custodian only); decryption and digest
verification happen inside a try whose generic handler re-raises any
failure, including the integrity-check HTTPException, as a 500. -/
def download_file (C : CipherModel) (key : List Nat) (db : DB) (current_user : User)
    (evidence_id file_id : Nat) (ts : String) : Except ApiError (DB × List Nat) :=
  match db.evidences.find? (fun e => e.id == evidence_id) with
  | none => .error (.notFound "Evidence not found")
  | some _ =>
  match db.evidenceFiles.find? (fun f => f.id == file_id && f.evidence_id == evidence_id) with
  | none => .error (.notFound "File not found")
  | some evidence_file =>
  if ¬ can_download_files current_user (db.custodies.find? (fun c => c.evidence_id == evidence_id)) then
    .error (.forbidden "Only current custodian can download files")
  else
    match decrypt_file_data C key db.storage evidence_file.cipher_path with
    | .error .fileNotFound => .error (.internalError "Encrypted file not found on disk")
    | .error .invalidTag => .error (.internalError "Failed to decrypt file: InvalidTag")
    | .ok decrypted_data =>
        if compute_sha256 decrypted_data ≠ evidence_file.sha256_hex then
          -- raised as a 500 HTTPException, then re-wrapped by the except block
          .error (.internalError "Failed to decrypt file: 500: File integrity check failed")
        else
          let audit_details := jobj [
            ("action", .str "FILE_DOWNLOADED"), ("file_id", .num file_id),
            ("filename", .str evidence_file.orig_filename),
            ("accessed_by", .str current_user.name)]
          let db1 := appendAudit db evidence_id current_user.id "FILE_DOWNLOADED"
            audit_details (some (lastAuditHash db evidence_id)) ts
          .ok (db1, decrypted_data)

/-! ## Analysis endpoints (`backend/api/analysis.py`) -/

def _is_current_custodian (db : DB) (evidence_id user_id : Nat) : Bool :=
  match db.custodies.find? (fun c => c.evidence_id == evidence_id) with
  | some custody => custody.current_user_id == user_id
  | none => false

/-- One iteration of the create_analysis file loop (no validate_file here). -/
def addAnalysisFile (C : CipherModel) (key : List Nat) (analysisId : Nat)
    (db : DB) (fns : UploadFile × List Nat × String) : DB :=
  let (file, nonce, fname) := fns
  let (storage', cipher_path, sha256_hex) :=
    encrypt_file_data C key db.storage nonce fname file.content
  let af : AnalysisFile := {
    id := db.nextAnalysisFileId
    analysis_id := analysisId
    orig_filename := file.filename
    -- uf.content_type or "application/octet-stream": empty string is falsy
    mime := if file.content_type = "" then "application/octet-stream" else file.content_type
    size_bytes := file.content.length
    sha256_hex := sha256_hex
    cipher_path := cipher_path }
  { db with
      storage := storage'
      analysisFiles := db.analysisFiles ++ [af]
      nextAnalysisFileId := db.nextAnalysisFileId + 1 }

def create_analysis (C : CipherModel) (key : List Nat) (db : DB) (current_user : User)
    (evidence_id : Nat)
    (analysis_at_iso analysis_by role place_of_analysis description : String)
    (files : List (UploadFile × List Nat × String)) (ts : String) :
    Except ApiError (DB × Analysis) :=
  match db.evidences.find? (fun e => e.id == evidence_id) with
  | none => .error (.notFound "Evidence not found")
  | some _ =>
  if ¬ _is_current_custodian db evidence_id current_user.id then
    .error (.forbidden "Only current custodian can add analysis")
  else
  if ¬ fromisoformatOk (replaceZ analysis_at_iso) then
    .error (.badRequest "Invalid analysis_at_iso")
  else
    -- normalized to second-precision UTC by the endpoint before storing
    let at_dt := replaceZ analysis_at_iso
    let analysis : Analysis := {
      id := db.nextAnalysisId
      evidence_id := evidence_id
      analysis_at_utc := at_dt
      analysis_by := analysis_by
      role := role
      place_of_analysis := place_of_analysis
      description := description
      created_by_user_id := current_user.id }
    let db1 := { db with
      analyses := db.analyses ++ [analysis]
      nextAnalysisId := db.nextAnalysisId + 1 }
    let db2 := files.foldl (addAnalysisFile C key analysis.id) db1
    let audit_details := jobj [
      ("action", .str "ANALYSIS_CREATED"), ("analysis_id", .num analysis.id),
      ("analysis_by", .str analysis_by), ("role", .str role),
      ("place_of_analysis", .str place_of_analysis)]
    let db3 := appendAudit db2 evidence_id current_user.id "ANALYSIS_CREATED"
      audit_details (some (lastAuditHash db2 evidence_id)) ts
    .ok (db3, analysis)

/-- download_analysis_file: custodian-gated decrypt and return; the source
performs no digest re-verification and writes no audit entry, so the state
comes back exactly as given. -/
def download_analysis_file (C : CipherModel) (key : List Nat) (db : DB)
    (current_user : User) (analysis_id file_id : Nat) :
    Except ApiError (DB × List Nat) :=
  match db.analyses.find? (fun a => a.id == analysis_id) with
  | none => .error (.notFound "Analysis not found")
  | some a =>
  if ¬ _is_current_custodian db a.evidence_id current_user.id then
    .error (.forbidden "Only current custodian can download analysis files")
  else
  match db.analysisFiles.find? (fun f => f.id == file_id && f.analysis_id == analysis_id) with
  | none => .error (.notFound "File not found")
  | some f =>
    match decrypt_file_data C key db.storage f.cipher_path with
    | .error .fileNotFound => .error (.internalError "Encrypted file not found on disk")
    | .error .invalidTag => .error (.internalError "Failed to decrypt file: InvalidTag")
    | .ok decrypted => .ok (db, decrypted)

/-! ## Chain verification (`backend/api/audit.py` verify_audit_chain) -/

/-- The canonical entry payload reconstructed from a stored row, with the
stored timestamp normalized to tz-aware second-precision UTC (the row
already holds that canonical string, see `AuditLog`). -/
def entryDataOf (log : AuditLog) : Json :=
  auditEntryData log.evidence_id log.actor_user_id log.action log.details log.ts_utc

structure VerifyEntry where
  entry_id : Nat
  sequence : Nat
  action : String
  ts_utc : String
  prev_hash_valid : Bool
  entry_hash_valid : Bool
  entry_valid : Bool
  expected_prev_hash : String
  actual_prev_hash : String
  expected_entry_hash : String
  actual_entry_hash : String
deriving DecidableEq, Repr

/-- The verification walk: recompute each entry hash from the STORED
prev_hash and payload, check the stored prev_hash against the previous
entry's STORED entry_hash, and accumulate per-entry reports; any invalid
entry makes the aggregate false without stopping the walk. -/
def verifyWalk (expected_prev : String) (seq : Nat) :
    List AuditLog → List VerifyEntry × Bool
  | [] => ([], true)
  | log :: rest =>
      let prev_hash_valid := log.prev_hash_hex == expected_prev
      let expected_entry_hash := compute_entry_hash log.prev_hash_hex (entryDataOf log)
      let entry_hash_valid := log.entry_hash_hex == expected_entry_hash
      let entry_valid := prev_hash_valid && entry_hash_valid
      let (tail, tail_valid) := verifyWalk log.entry_hash_hex (seq + 1) rest
      ({ entry_id := log.id
         sequence := seq
         action := log.action
         ts_utc := log.ts_utc
         prev_hash_valid := prev_hash_valid
         entry_hash_valid := entry_hash_valid
         entry_valid := entry_valid
         expected_prev_hash := expected_prev
         actual_prev_hash := log.prev_hash_hex
         expected_entry_hash := expected_entry_hash
         actual_entry_hash := log.entry_hash_hex } :: tail,
       entry_valid && tail_valid)

structure VerifyResult where
  evidence_id : Nat
  evidence_id_str : String
  chain_valid : Bool
  total_entries : Nat
  verification_details : List VerifyEntry
deriving DecidableEq, Repr

def verify_audit_chain (db : DB) (evidence_id : Nat) : Except ApiError VerifyResult :=
  match db.evidences.find? (fun e => e.id == evidence_id) with
  | none => .error (.notFound "Evidence not found")
  | some evidence =>
      let audit_logs := db.auditLogs.filter (fun l => l.evidence_id == evidence_id)
      let (details, valid) := verifyWalk "" 1 audit_logs
      .ok {
        evidence_id := evidence_id
        evidence_id_str := evidence.evidence_id_str
        chain_valid := valid
        total_entries := audit_logs.length
        verification_details := details }

/-- The (chain_valid, per-entry entry_valid) view of a verification run;
(true, []) when the evidence item does not exist. -/
def verifyReport (db : DB) (evid : Nat) : Bool × List Bool :=
  match verify_audit_chain db evid with
  | .ok r => (r.chain_valid, r.verification_details.map (fun v => v.entry_valid))
  | .error _ => (true, [])

/-! ## Audit-producing operations as a step relation -/

/-- The audit-producing operations; each carries the authenticated caller,
its request arguments, the fresh randomness the cipher store draws, and the
request's wall clock (second-precision UTC isoformat). -/
inductive Op where
  | opCreateEvidence (caller : User)
      (agency case_no offense item_no badge_no location collected_at description : String)
      (evidence_name : Option String) (files : List (UploadFile × List Nat × String))
      (ts : String)
  | opRequestTransfer (caller : User) (evidence_id to_user_id : Nat) (reason ts : String)
  | opAcceptTransfer (caller : User) (transfer_id : Nat) (ts : String)
  | opCancelTransfer (caller : User) (transfer_id : Nat) (ts : String)
  | opRejectTransfer (caller : User) (transfer_id : Nat) (ts : String)
  | opDownloadFile (caller : User) (evidence_id file_id : Nat) (ts : String)
  | opCreateAnalysis (caller : User) (evidence_id : Nat)
      (analysis_at_iso analysis_by role place_of_analysis description : String)
      (files : List (UploadFile × List Nat × String)) (ts : String)

/-- Run one operation; an HTTPException aborts the transaction, leaving the
store unchanged. -/
def applyOp (C : CipherModel) (key : List Nat) (db : DB) : Op → DB
  | .opCreateEvidence u ag cn off it bn loc ca de en fs ts =>
      match create_evidence C key db u ag cn off it bn loc ca de en fs ts with
      | .ok (db', _) => db'
      | .error _ => db
  | .opRequestTransfer u evid toId r ts =>
      match request_transfer db u evid toId r ts with
      | .ok (db', _) => db'
      | .error _ => db
  | .opAcceptTransfer u tid ts =>
      match accept_transfer db u tid ts with
      | .ok (db', _) => db'
      | .error _ => db
  | .opCancelTransfer u tid ts =>
      match cancel_transfer db u tid ts with
      | .ok (db', _) => db'
      | .error _ => db
  | .opRejectTransfer u tid ts =>
      match reject_transfer db u tid ts with
      | .ok (db', _) => db'
      | .error _ => db
  | .opDownloadFile u evid fid ts =>
      match download_file C key db u evid fid ts with
      | .ok (db', _) => db'
      | .error _ => db
  | .opCreateAnalysis u evid ai ab ro pl de fs ts =>
      match create_analysis C key db u evid ai ab ro pl de fs ts with
      | .ok (db', _) => db'
      | .error _ => db

def applyOps (C : CipherModel) (key : List Nat) (db : DB) (ops : List Op) : DB :=
  ops.foldl (applyOp C key) db

/-! ## Chain well-formedness and state invariants (spec side) -/

/-- A stored per-item audit chain hangs together from `prev`: each entry
links to the previous stored hash and its stored hash recomputes from its
own stored prev_hash and canonical payload. -/
def chainOkFrom (prev : String) : List AuditLog → Bool
  | [] => true
  | e :: rest =>
      (e.prev_hash_hex == prev) &&
      (e.entry_hash_hex == compute_entry_hash e.prev_hash_hex (entryDataOf e)) &&
      chainOkFrom e.entry_hash_hex rest

/-- The hash the next entry must link to after walking `l` from `prev`. -/
def lastHashFrom (prev : String) (l : List AuditLog) : String :=
  match l.getLast? with
  | some e => e.entry_hash_hex
  | none => prev

/-- The stored audit entries of one evidence item, in insertion order. -/
def evidLogs (db : DB) (evid : Nat) : List AuditLog :=
  db.auditLogs.filter (fun l => l.evidence_id == evid)

/-- Reachable-state invariant: audit rows and the evidence ids referenced
by transfers and analyses only mention already-allocated evidence ids, and
every per-item chain is well-formed. -/
structure DBInv (db : DB) : Prop where
  ev_lt : ∀ e ∈ db.evidences, e.id < db.nextEvidenceId
  tr_lt : ∀ t ∈ db.transfers, t.evidence_id < db.nextEvidenceId
  an_lt : ∀ a ∈ db.analyses, a.evidence_id < db.nextEvidenceId
  log_lt : ∀ l ∈ db.auditLogs, l.evidence_id < db.nextEvidenceId
  chain : ∀ evid, chainOkFrom "" (evidLogs db evid) = true

/-- At most one PENDING transfer per evidence item. -/
def atMostOnePending (db : DB) : Prop :=
  db.transfers.Pairwise
    (fun a b => ¬(a.status = .PENDING ∧ b.status = .PENDING ∧ a.evidence_id = b.evidence_id))

/-- After-the-fact mutation of a stored audit row's action/details fields;
every other stored field (ids, timestamp, both hashes) is untouched. -/
def mutateLog (e : AuditLog) (action' : String) (details' : Json) : AuditLog :=
  { e with action := action', details := details' }

/-! ## Concrete instances used by the witnesses -/

/-- A concrete instance of the external AEAD interface. -/
def cipher0 : CipherModel :=
  { ks := fun _ _ _ => 0, tagOf := fun _ _ _ => List.replicate 16 7 }

def key0 : List Nat := List.replicate 32 1

def alice : User :=
  { id := 1, name := "Alice", email := "alice@agency.example", role := .COLLECTOR }

def bob : User :=
  { id := 2, name := "Bob", email := "bob@agency.example", role := .ANALYST }

/-- A store holding only the two users: no evidence, no chains yet. -/
def emptyDB : DB :=
  { users := [alice, bob], evidences := [], evidenceFiles := [], custodies := [],
    transfers := [], analyses := [], analysisFiles := [], auditLogs := [], storage := [],
    nextEvidenceId := 1, nextEvidenceFileId := 1, nextTransferId := 1, nextAnalysisId := 1,
    nextAnalysisFileId := 1, nextAuditId := 1 }

def pdfFile : UploadFile :=
  { filename := "scan.pdf", content_type := "application/pdf",
    size := some 3, content := [10, 20, 30] }

def opCreate1 : Op :=
  .opCreateEvidence alice "AG" "C1" "theft" "I1" "B7" "locker" "2024-01-01T00:00:00Z" "desc"
    none [(pdfFile, List.replicate 12 0, "blob1.bin")] "2024-01-02T00:00:00+00:00"

def opRequest1 : Op :=
  .opRequestTransfer alice 1 2 "handoff" "2024-01-03T00:00:00+00:00"

/-- State after Alice creates evidence item 1 with one PDF. -/
def dbCreated : DB := applyOps cipher0 key0 emptyDB [opCreate1]

/-- State after the creation plus a pending transfer to Bob. -/
def dbRequested : DB := applyOps cipher0 key0 emptyDB [opCreate1, opRequest1]

/-- A hand-built state with a PENDING transfer whose evidence item has no
Custody row at all. -/
def evNoCust : Evidence :=
  { id := 1, evidence_id_str := "AG-C9-I1", evidence_name := none, agency := "AG",
    case_no := "C9", offense := "theft", item_no := "I1", collected_by_user_id := 1,
    badge_no := "B7", location := "locker", collected_at_utc := "2024-01-01T00:00:00+00:00",
    description := "desc" }

def pendingNoCust : Transfer :=
  { id := 1, evidence_id := 1, from_user_id := 1, to_user_id := 2, reason := "orphaned",
    accepted_at_utc := none, status := .PENDING }

def dbNoCustody : DB :=
  { emptyDB with
    evidences := [evNoCust]
    transfers := [pendingNoCust]
    nextEvidenceId := 2
    nextTransferId := 2 }

/-- A hand-built state with an analysis file whose stored digest is bogus
("deadbeef"), yet whose blob decrypts fine under `cipher0`. -/
def anRow : Analysis :=
  { id := 1, evidence_id := 1, analysis_at_utc := "2024-02-01T00:00:00+00:00",
    analysis_by := "Bob", role := "examiner", place_of_analysis := "lab",
    description := "fingerprints", created_by_user_id := 2 }

def anFileRow : AnalysisFile :=
  { id := 1, analysis_id := 1, orig_filename := "report.pdf", mime := "application/pdf",
    size_bytes := 2, sha256_hex := "deadbeef", cipher_path := "an1.bin" }

def dbAnalysis : DB :=
  { emptyDB with
    evidences := [evNoCust]
    custodies := [{ evidence_id := 1, current_user_id := 2, since_utc := "2024-01-05T00:00:00+00:00" }]
    analyses := [anRow]
    analysisFiles := [anFileRow]
    storage := [("an1.bin", List.replicate 12 0 ++ [5, 6] ++ List.replicate 16 7)]
    nextEvidenceId := 2, nextAnalysisId := 2, nextAnalysisFileId := 2 }

/-- The pending transfer row created by `opRequest1`. -/
def tReq : Transfer :=
  { id := 1, evidence_id := 1, from_user_id := 1, to_user_id := 2, reason := "handoff",
    accepted_at_utc := none, status := .PENDING }

/-- An upload with a disallowed MIME type. -/
def zipFile : UploadFile :=
  { filename := "evil.zip", content_type := "application/zip",
    size := some 3, content := [1, 2, 3] }

/-- The EvidenceFile row created by `opCreate1`. -/
def fileRow1 : EvidenceFile :=
  { id := 1, evidence_id := 1, orig_filename := "scan.pdf", mime := "application/pdf",
    size_bytes := 3, sha256_hex := compute_sha256 [10, 20, 30], cipher_path := "blob1.bin" }

def blankLog : AuditLog :=
  { id := 0, evidence_id := 0, actor_user_id := 0, action := "", details := .sNil,
    ts_utc := "", prev_hash_hex := "", entry_hash_hex := "" }

def tamperedDetails : Json := jobj [("action", .str "EVIDENCE_TAMPERED")]

def origLog1 : AuditLog := dbRequested.auditLogs.headD blankLog

def tamperedLog1 : AuditLog := mutateLog origLog1 "EVIDENCE_TAMPERED" tamperedDetails

/-- dbRequested with the first audit entry's action/details overwritten
after the fact; ids, timestamp and both stored hashes untouched. -/
def dbTampered : DB :=
  { dbRequested with auditLogs := tamperedLog1 :: dbRequested.auditLogs.tail }

/-- The stored entry hash of the EVIDENCE_CREATED genesis entry of
`dbRequested` (established by `dbRequested_logs` below). -/
def hash1Hex : String :=
  "8e7ca7471bdb473de82d7a23b87604d3ca7ea2cf1db6dff34d04a1644e2c99c9"

/-- The stored entry hash of the TRANSFER_REQUESTED entry of
`dbRequested`. -/
def hash2Hex : String :=
  "72a373015aa1e57da5ca4968c1511fc442675b89031f24218630cb26f53c9542"

/-- The hash verify_audit_chain recomputes for the tampered genesis entry:
SHA256 of "" plus the canonical payload carrying the overwritten
action/details. -/
def hashTamperedHex : String :=
  "35839d1cbbd9992d3596db2b437cb86b070ec59c3877c89e6968911b31348224"

/-- The genesis audit row of `dbRequested`, written out field by field. -/
def row1Lit : AuditLog :=
  { id := 1, evidence_id := 1, actor_user_id := 1, action := "EVIDENCE_CREATED",
    details := jobj [
      ("action", .str "EVIDENCE_CREATED"), ("evidence_id_str", .str "AG-C1-I1"),
      ("files", jarr [jobj [
        ("filename", .str "scan.pdf"), ("size_bytes", .num 3),
        ("sha256", .str "6951bbd9c2178b2a9d01714687307afda1eb6161ff8c398486a76683e7b42925"),
        ("mime", .str "application/pdf")]]),
      ("created_by", .str "Alice")],
    ts_utc := "2024-01-02T00:00:00+00:00", prev_hash_hex := "",
    entry_hash_hex := hash1Hex }

/-- The second audit row of `dbRequested`, written out field by field. -/
def row2Lit : AuditLog :=
  { id := 2, evidence_id := 1, actor_user_id := 1, action := "TRANSFER_REQUESTED",
    details := jobj [
      ("action", .str "TRANSFER_REQUESTED"), ("transfer_id", .num 1),
      ("from_user", .str "Alice"), ("to_user", .str "Bob"), ("reason", .str "handoff")],
    ts_utc := "2024-01-03T00:00:00+00:00", prev_hash_hex := hash1Hex,
    entry_hash_hex := hash2Hex }

/-- The tampered genesis row in literal form. -/
def mutT : AuditLog := mutateLog row1Lit "EVIDENCE_TAMPERED" tamperedDetails

/-- The Evidence row created by `opCreate1`, written out field by field. -/
def evLit : Evidence :=
  { id := 1, evidence_id_str := "AG-C1-I1", evidence_name := none, agency := "AG",
    case_no := "C1", offense := "theft", item_no := "I1", collected_by_user_id := 1,
    badge_no := "B7", location := "locker", collected_at_utc := "2024-01-01T00:00:00+00:00",
    description := "desc" }

/-! ## Helper lemmas: cipher store -/

theorem xorStream_length (ks : Nat → Nat) : ∀ (i : Nat) (l : List Nat),
    (xorStream ks i l).length = l.length := by
  intro i l
  induction l generalizing i with
  | nil => rfl
  | cons b bs ih => simp [xorStream, ih]

theorem xorStream_involution (ks : Nat → Nat) : ∀ (i : Nat) (l : List Nat),
    xorStream ks i (xorStream ks i l) = l := by
  intro i l
  induction l generalizing i with
  | nil => rfl
  | cons b bs ih =>
      simp only [xorStream, ih]
      rw [Nat.xor_cancel_right]

/-- C5: decrypt ∘ encrypt is the identity on every byte payload (the empty
one included), the returned digest is the SHA-256 hex digest of the
plaintext, and the stored blob is 12-byte nonce, then ciphertext, then
16-byte tag. -/
theorem encrypt_decrypt_roundtrip (C : CipherModel) (key : List Nat)
    (storage : List (String × List Nat)) (nonce : List Nat) (fname : String)
    (P : List Nat) (hnonce : nonce.length = 12)
    (htag : ∀ k n c, (C.tagOf k n c).length = 16) :
    decrypt_file_data C key (encrypt_file_data C key storage nonce fname P).1
      (encrypt_file_data C key storage nonce fname P).2.1 = .ok P ∧
    (encrypt_file_data C key storage nonce fname P).2.2 = sha256HexBytes P ∧
    (∃ ct tag, lookupBlob (encrypt_file_data C key storage nonce fname P).1
        (encrypt_file_data C key storage nonce fname P).2.1 = some (nonce ++ ct ++ tag) ∧
      ct.length = P.length ∧ tag.length = 16) := by
  have hct : (xorStream (C.ks key nonce) 0 P).length = P.length := xorStream_length _ 0 P
  set ct := xorStream (C.ks key nonce) 0 P with hctdef
  set tag := C.tagOf key nonce ct with htagdef
  have htlen : tag.length = 16 := htag key nonce ct
  have hlook : lookupBlob (encrypt_file_data C key storage nonce fname P).1
      (encrypt_file_data C key storage nonce fname P).2.1 = some (nonce ++ ct ++ tag) := by
    simp [encrypt_file_data, lookupBlob]
  refine ⟨?_, by simp [encrypt_file_data, compute_sha256], ct, tag, hlook, hct, htlen⟩
  have hblob : (nonce ++ ct ++ tag).length = 28 + P.length := by
    simp [List.length_append, hnonce, hct, htlen]; omega
  have htake : (nonce ++ ct ++ tag).take 12 = nonce := by
    rw [List.append_assoc]
    exact List.take_left' hnonce
  have hdroptag : (nonce ++ ct ++ tag).drop ((nonce ++ ct ++ tag).length - 16) = tag := by
    rw [hblob]
    have : 28 + P.length - 16 = (nonce ++ ct).length := by
      simp [List.length_append, hnonce, hct]; omega
    rw [this]
    exact List.drop_left _ _
  have hdropct : ((nonce ++ ct ++ tag).drop 12).take ((nonce ++ ct ++ tag).length - 28) = ct := by
    rw [List.append_assoc, List.drop_left' hnonce]
    have h28 : (nonce ++ (ct ++ tag)).length - 28 = ct.length := by
      simp [List.length_append, hnonce, hct, htlen]
      omega
    rw [h28]
    exact List.take_left _ _
  simp only [decrypt_file_data, hlook, htake, hdroptag, hdropct]
  simp only [if_true, eq_self_iff_true, ite_true]
  rw [hctdef]
  rw [xorStream_involution]

/-- Closed witness for C5 at a concrete payload, nonce and cipher model. -/
theorem encrypt_decrypt_roundtrip_witness :
    (List.replicate 12 0).length = 12 ∧
    (∀ k n c, (cipher0.tagOf k n c).length = 16) ∧
    decrypt_file_data cipher0 key0
      (encrypt_file_data cipher0 key0 [] (List.replicate 12 0) "b.bin" [9, 8, 7]).1
      (encrypt_file_data cipher0 key0 [] (List.replicate 12 0) "b.bin" [9, 8, 7]).2.1 =
      .ok [9, 8, 7] :=
  ⟨by decide, fun k n c => by simp [cipher0],
   (encrypt_decrypt_roundtrip cipher0 key0 [] (List.replicate 12 0) "b.bin" [9, 8, 7]
      (by decide) (fun k n c => by simp [cipher0])).1⟩

/-! ## C10: analysis-file download is unaudited and unverified -/

/-- C10: a successful analysis-file download by the current custodian
returns the decrypted bytes with the store exactly as given — no audit row
is appended — and no hypothesis ties the bytes to the stored sha256_hex:
the digest is not re-verified (the witness below downloads a file whose
stored digest is garbage). -/
theorem download_analysis_file_unaudited (C : CipherModel) (key : List Nat) (db : DB)
    (u : User) (aid fid : Nat) (a : Analysis) (f : AnalysisFile) (bytes : List Nat)
    (ha : db.analyses.find? (fun x => x.id == aid) = some a)
    (hc : _is_current_custodian db a.evidence_id u.id = true)
    (hf : db.analysisFiles.find? (fun x => x.id == fid && x.analysis_id == aid) = some f)
    (hd : decrypt_file_data C key db.storage f.cipher_path = .ok bytes) :
    download_analysis_file C key db u aid fid = .ok (db, bytes) := by
  simp [download_analysis_file, ha, hc, hf, hd]

/-- Closed witness for C10: Bob downloads an analysis file whose stored
digest is "deadbeef" (not the digest of anything); the download still
succeeds and the state comes back unchanged. -/
theorem download_analysis_file_unaudited_witness :
    dbAnalysis.analyses.find? (fun x => x.id == 1) = some anRow ∧
    compute_sha256 [5, 6] ≠ anFileRow.sha256_hex ∧
    download_analysis_file cipher0 key0 dbAnalysis bob 1 1 = .ok (dbAnalysis, [5, 6]) :=
  ⟨rfl, by decide,
   download_analysis_file_unaudited cipher0 key0 dbAnalysis bob 1 1 anRow anFileRow [5, 6]
     rfl rfl rfl rfl⟩

/-! ## C9: accept_transfer with a missing Custody row -/

/-- C9: accepting a PENDING transfer for an evidence item with no Custody
row does not fail; a fresh Custody row is created for the accepting
recipient, restoring exactly-one-custody for that item. -/
theorem accept_transfer_restores_custody (db : DB) (u : User) (tid : Nat) (ts : String)
    (t : Transfer)
    (ht : db.transfers.find? (fun x => x.id == tid) = some t)
    (hrecip : t.to_user_id = u.id)
    (hpend : t.status = .PENDING)
    (hnocust : db.custodies.find? (fun c => c.evidence_id == t.evidence_id) = none) :
    ∃ db', accept_transfer db u tid ts =
        .ok (db', { t with status := .ACCEPTED, accepted_at_utc := some ts }) ∧
      db'.custodies = db.custodies ++
        [{ evidence_id := t.evidence_id, current_user_id := u.id, since_utc := ts }] ∧
      (db'.custodies.filter (fun c => c.evidence_id == t.evidence_id)).length = 1 := by
  have hcan : can_accept_transfer u t = true := by
    simp [can_accept_transfer, hrecip]
  have hempty : db.custodies.filter (fun c => c.evidence_id == t.evidence_id) = [] := by
    rw [List.filter_eq_nil_iff]
    intro c hcmem
    have := List.find?_eq_none.mp hnocust c hcmem
    simpa using this
  simp only [accept_transfer, ht, hcan, hpend, hnocust, not_true, ite_false, ne_eq,
    not_false_iff, ite_true, reduceCtorEq, if_false, if_true]
  refine ⟨_, rfl, ?_, ?_⟩
  · simp [appendAudit]
  · simp only [appendAudit]
    rw [List.filter_append, hempty]
    simp

/-- Closed witness for C9 on the hand-built no-custody state. -/
theorem accept_transfer_restores_custody_witness :
    dbNoCustody.custodies.find? (fun c => c.evidence_id == pendingNoCust.evidence_id) = none ∧
    (∃ db', accept_transfer dbNoCustody bob 1 "2024-01-06T00:00:00+00:00" =
        .ok (db', { pendingNoCust with status := .ACCEPTED, accepted_at_utc := some "2024-01-06T00:00:00+00:00" }) ∧
      db'.custodies = dbNoCustody.custodies ++
        [{ evidence_id := pendingNoCust.evidence_id, current_user_id := bob.id,
           since_utc := "2024-01-06T00:00:00+00:00" }] ∧
      (db'.custodies.filter (fun c => c.evidence_id == pendingNoCust.evidence_id)).length = 1) :=
  ⟨rfl, accept_transfer_restores_custody dbNoCustody bob 1 "2024-01-06T00:00:00+00:00"
    pendingNoCust rfl rfl rfl rfl⟩

/-! ## Helper lemmas: updateFirst -/

theorem updateFirst_find?_same (p : α → Bool) (f : α → α) :
    ∀ (l : List α) (x : α), l.find? p = some x → p (f x) = true →
      (updateFirst p f l).find? p = some (f x) := by
  intro l
  induction l with
  | nil => intro x hx; simp at hx
  | cons y ys ih =>
      intro x hx hpf
      by_cases hy : p y = true
      · rw [List.find?_cons_of_pos _ hy] at hx
        injection hx with hx
        subst hx
        simp [updateFirst, hy, List.find?_cons_of_pos _ hpf]
      · have hyf : p y = false := by simpa using hy
        rw [List.find?_cons_of_neg _ (by simp [hyf])] at hx
        simp only [updateFirst, hyf, Bool.false_eq_true, if_false]
        rw [List.find?_cons_of_neg _ (by simp [hyf])]
        exact ih x hx hpf

theorem find?_append_right (p : α → Bool) (l₁ l₂ : List α)
    (h : l₁.find? p = none) : (l₁ ++ l₂).find? p = l₂.find? p := by
  induction l₁ with
  | nil => simp
  | cons y ys ih =>
      rw [List.find?_cons] at h
      cases hy : p y with
      | true => rw [hy] at h; simp at h
      | false =>
          rw [hy] at h
          rw [List.cons_append, List.find?_cons, hy]
          exact ih h

/-! ## C4: accept_transfer contract -/

/-- C4: accept_transfer rejects a caller other than the transfer's
to_user with 403; rejects a non-PENDING transfer with 400 (for the
rightful recipient); and on success marks the transfer ACCEPTED with
accepted_at_utc = now, and leaves the evidence item's Custody row holding
current_user_id = caller (= to_user) with since_utc = now. -/
theorem accept_transfer_spec (db : DB) (u : User) (tid : Nat) (ts : String) (t : Transfer)
    (ht : db.transfers.find? (fun x => x.id == tid) = some t) :
    (t.to_user_id ≠ u.id →
      accept_transfer db u tid ts = .error (.forbidden "Only the recipient can accept this transfer")) ∧
    (t.to_user_id = u.id → t.status ≠ .PENDING →
      accept_transfer db u tid ts =
        .error (.badRequest ("Transfer is not pending (status: " ++ t.status.value ++ ")"))) ∧
    (t.to_user_id = u.id → t.status = .PENDING →
      ∃ db', accept_transfer db u tid ts =
          .ok (db', { t with status := .ACCEPTED, accepted_at_utc := some ts }) ∧
        db'.transfers = updateFirst (fun x => x.id == tid)
          (fun _ => { t with status := .ACCEPTED, accepted_at_utc := some ts }) db.transfers ∧
        db'.custodies.find? (fun c => c.evidence_id == t.evidence_id) =
          some { evidence_id := t.evidence_id, current_user_id := u.id, since_utc := ts }) := by
  refine ⟨?_, ?_, ?_⟩
  · intro hne
    have hcan : can_accept_transfer u t = false := by
      simp [can_accept_transfer]
      exact hne
    simp [accept_transfer, ht, hcan]
  · intro heq hnp
    have hcan : can_accept_transfer u t = true := by
      simp [can_accept_transfer, heq]
    simp [accept_transfer, ht, hcan, hnp]
  · intro heq hpend
    have hcan : can_accept_transfer u t = true := by
      simp [can_accept_transfer, heq]
    cases hc : db.custodies.find? (fun c => c.evidence_id == t.evidence_id) with
    | some c =>
        have hcp := List.find?_some hc
        simp only [accept_transfer, ht, hcan, hpend, hc, not_true, ite_false, ne_eq,
          not_false_iff, ite_true, reduceCtorEq, if_false, if_true]
        refine ⟨_, rfl, by simp [appendAudit], ?_⟩
        simp only [appendAudit]
        have := updateFirst_find?_same (fun c => c.evidence_id == t.evidence_id)
          (fun c => { c with current_user_id := u.id, since_utc := ts }) db.custodies c hc
          (by simpa using hcp)
        simp only [this]
        have hce : c.evidence_id = t.evidence_id := by simpa using hcp
        simp [hce]
    | none =>
        simp only [accept_transfer, ht, hcan, hpend, hc, not_true, ite_false, ne_eq,
          not_false_iff, ite_true, reduceCtorEq, if_false, if_true]
        refine ⟨_, rfl, by simp [appendAudit], ?_⟩
        simp only [appendAudit]
        rw [find?_append_right _ _ _ hc]
        simp

theorem accept_transfer_spec_witness :
    dbRequested.transfers.find? (fun x => x.id == 1) = some tReq ∧
    tReq.to_user_id = bob.id ∧ tReq.status = .PENDING ∧
    (∃ db', accept_transfer dbRequested bob 1 "2024-01-04T00:00:00+00:00" =
        .ok (db', { tReq with status := .ACCEPTED, accepted_at_utc := some "2024-01-04T00:00:00+00:00" }) ∧
      db'.transfers = updateFirst (fun x => x.id == 1)
        (fun _ => { tReq with status := .ACCEPTED, accepted_at_utc := some "2024-01-04T00:00:00+00:00" }) dbRequested.transfers ∧
      db'.custodies.find? (fun c => c.evidence_id == tReq.evidence_id) =
        some { evidence_id := tReq.evidence_id, current_user_id := bob.id,
               since_utc := "2024-01-04T00:00:00+00:00" }) :=
  ⟨rfl, rfl, rfl,
   (accept_transfer_spec dbRequested bob 1 "2024-01-04T00:00:00+00:00" tReq rfl).2.2 rfl rfl⟩

/-! ## C8: cancel and reject leave Custody untouched -/

/-- C8: cancel_transfer (initiator only) and reject_transfer (recipient
only) each turn a PENDING transfer into CANCELLED and leave the custody
table exactly as it was; a non-PENDING transfer yields the invalid-state
400 for the authorized caller, and an unauthorized caller gets 403. -/
theorem cancel_reject_spec (db : DB) (u : User) (tid : Nat) (ts : String) (t : Transfer)
    (ht : db.transfers.find? (fun x => x.id == tid) = some t) :
    (t.from_user_id = u.id → t.status = .PENDING →
      ∃ db', cancel_transfer db u tid ts = .ok (db', { t with status := .CANCELLED }) ∧
        db'.custodies = db.custodies ∧
        db'.transfers = updateFirst (fun x => x.id == tid)
          (fun _ => { t with status := .CANCELLED }) db.transfers) ∧
    (t.from_user_id ≠ u.id →
      cancel_transfer db u tid ts = .error (.forbidden "Only the initiator can cancel this transfer")) ∧
    (t.from_user_id = u.id → t.status ≠ .PENDING →
      cancel_transfer db u tid ts =
        .error (.badRequest ("Transfer is not pending (status: " ++ t.status.value ++ ")"))) ∧
    (t.to_user_id = u.id → t.status = .PENDING →
      ∃ db', reject_transfer db u tid ts = .ok (db', { t with status := .CANCELLED }) ∧
        db'.custodies = db.custodies ∧
        db'.transfers = updateFirst (fun x => x.id == tid)
          (fun _ => { t with status := .CANCELLED }) db.transfers) ∧
    (t.to_user_id ≠ u.id →
      reject_transfer db u tid ts = .error (.forbidden "Only the recipient can reject this transfer")) ∧
    (t.to_user_id = u.id → t.status ≠ .PENDING →
      reject_transfer db u tid ts =
        .error (.badRequest ("Transfer is not pending (status: " ++ t.status.value ++ ")"))) := by
  refine ⟨?_, ?_, ?_, ?_, ?_, ?_⟩
  · intro hfrom hpend
    simp only [cancel_transfer, ht, hfrom, hpend, not_true, ite_false, ne_eq,
      not_false_iff, ite_true, reduceCtorEq, if_false, if_true]
    refine ⟨_, rfl, by simp [appendAudit], by simp [appendAudit]⟩
  · intro hne
    simp [cancel_transfer, ht, hne]
  · intro hfrom hnp
    simp [cancel_transfer, ht, hfrom, hnp]
  · intro hto hpend
    have hcan : can_accept_transfer u t = true := by
      simp [can_accept_transfer, hto]
    simp only [reject_transfer, ht, hcan, hpend, not_true, ite_false, ne_eq,
      not_false_iff, ite_true, reduceCtorEq, if_false, if_true]
    refine ⟨_, rfl, by simp [appendAudit], by simp [appendAudit]⟩
  · intro hne
    have hcan : can_accept_transfer u t = false := by
      simp [can_accept_transfer]
      exact hne
    simp [reject_transfer, ht, hcan]
  · intro hto hnp
    have hcan : can_accept_transfer u t = true := by
      simp [can_accept_transfer, hto]
    simp [reject_transfer, ht, hcan, hnp]

/-- Closed witness for C8: Alice cancels the pending transfer on the
concrete two-operation state, leaving the custody table untouched. -/
theorem cancel_reject_spec_witness :
    dbRequested.transfers.find? (fun x => x.id == 1) = some tReq ∧
    tReq.from_user_id = alice.id ∧ tReq.status = .PENDING ∧
    (∃ db', cancel_transfer dbRequested alice 1 "2024-01-07T00:00:00+00:00" =
        .ok (db', { tReq with status := .CANCELLED }) ∧
      db'.custodies = dbRequested.custodies ∧
      db'.transfers = updateFirst (fun x => x.id == 1)
        (fun _ => { tReq with status := .CANCELLED }) dbRequested.transfers) :=
  ⟨rfl, rfl, rfl,
   (cancel_reject_spec dbRequested alice 1 "2024-01-07T00:00:00+00:00" tReq rfl).1 rfl rfl⟩

/-! ## C7: upload validation rejects before any mutation -/

theorem validate_file_shape (f : UploadFile) :
    validate_file f = .ok () ∨ ∃ d, validate_file f = .error (.badRequest d) := by
  unfold validate_file
  by_cases h1 : f.content_type ∈ settings.allowed_mime_types
  · cases hs : f.size with
    | none => left; simp [h1, hs]
    | some n =>
        by_cases h2 : settings.max_file_size < n
        · right
          exact ⟨"File size exceeds maximum of " ++ toString settings.max_file_size ++ " bytes",
            by simp [h1, hs, h2]⟩
        · left; simp [h1, hs, h2]
  · right
    exact ⟨"File type " ++ f.content_type ++ " not allowed", by simp [h1]⟩

theorem validate_file_bad (f : UploadFile)
    (hbad : settings.allowed_mime_types.contains f.content_type = false ∨
            ∃ n, f.size = some n ∧ settings.max_file_size < n) :
    validate_file f ≠ .ok () := by
  intro hok
  unfold validate_file at hok
  rcases hbad with h | ⟨n, hn, hlt⟩
  · have h1 : f.content_type ∉ settings.allowed_mime_types := by simpa using h
    simp [h1] at hok
  · by_cases h1 : f.content_type ∈ settings.allowed_mime_types
    · simp [h1, hn, hlt] at hok
    · simp [h1] at hok

theorem validateFiles_ok_mem : ∀ (fs : List UploadFile), validateFiles fs = .ok () →
    ∀ f ∈ fs, validate_file f = .ok () := by
  intro fs
  induction fs with
  | nil => intro _ f hf; simp at hf
  | cons g gs ih =>
      intro h f hf
      unfold validateFiles at h
      cases hg : validate_file g with
      | error e => rw [hg] at h; simp at h
      | ok v =>
          rw [hg] at h
          rcases List.mem_cons.mp hf with hfg | hmem
          · cases v; rw [hfg]; exact hg
          · exact ih h f hmem

theorem validateFiles_shape : ∀ fs : List UploadFile,
    validateFiles fs = .ok () ∨ ∃ d, validateFiles fs = .error (.badRequest d) := by
  intro fs
  induction fs with
  | nil => left; rfl
  | cons g gs ih =>
      unfold validateFiles
      rcases validate_file_shape g with h | ⟨d, h⟩
      · rw [h]; exact ih
      · right; exact ⟨d, by rw [h]⟩

/-- C7: a create_evidence request carrying any file with a disallowed MIME
type or an oversize declared length fails with a 400 validation error
raised before any row insert or blob write: the store is unchanged. -/
theorem create_evidence_validation (C : CipherModel) (key : List Nat) (db : DB) (u : User)
    (agency case_no offense item_no badge_no location collected_at description : String)
    (evidence_name : Option String) (files : List (UploadFile × List Nat × String))
    (ts : String) (f : UploadFile)
    (hrole : can_create_evidence u = true)
    (hcase : db.evidences.find? (fun e => e.case_no == case_no) = none)
    (hf : f ∈ files.map (fun x => x.1))
    (hbad : settings.allowed_mime_types.contains f.content_type = false ∨
            ∃ n, f.size = some n ∧ settings.max_file_size < n) :
    (∃ d, create_evidence C key db u agency case_no offense item_no badge_no location
        collected_at description evidence_name files ts = .error (.badRequest d)) ∧
    applyOp C key db (.opCreateEvidence u agency case_no offense item_no badge_no location
        collected_at description evidence_name files ts) = db := by
  have hne : files.isEmpty = false := by
    cases files with
    | nil => simp at hf
    | cons a l => rfl
  have hvf : ∃ d, validateFiles (files.map (fun x => x.1)) = .error (.badRequest d) := by
    rcases validateFiles_shape (files.map fun x => x.1) with h | h
    · exact absurd (validateFiles_ok_mem _ h f hf) (validate_file_bad f hbad)
    · exact h
  obtain ⟨d, hd⟩ := hvf
  have hcre : create_evidence C key db u agency case_no offense item_no badge_no location
      collected_at description evidence_name files ts = .error (.badRequest d) := by
    simp [create_evidence, hrole, hcase, hne, hd]
  exact ⟨⟨d, hcre⟩, by simp [applyOp, hcre]⟩

theorem create_evidence_validation_witness :
    can_create_evidence alice = true ∧
    settings.allowed_mime_types.contains zipFile.content_type = false ∧
    (∃ d, create_evidence cipher0 key0 emptyDB alice "AG" "C7" "theft" "I1" "B7" "locker"
        "2024-01-01T00:00:00Z" "desc" none [(zipFile, List.replicate 12 0, "z.bin")]
        "2024-01-02T00:00:00+00:00" = .error (.badRequest d)) ∧
    applyOp cipher0 key0 emptyDB (.opCreateEvidence alice "AG" "C7" "theft" "I1" "B7" "locker"
        "2024-01-01T00:00:00Z" "desc" none [(zipFile, List.replicate 12 0, "z.bin")]
        "2024-01-02T00:00:00+00:00") = emptyDB :=
  ⟨rfl, rfl,
   (create_evidence_validation cipher0 key0 emptyDB alice "AG" "C7" "theft" "I1" "B7" "locker"
      "2024-01-01T00:00:00Z" "desc" none [(zipFile, List.replicate 12 0, "z.bin")]
      "2024-01-02T00:00:00+00:00" zipFile rfl rfl (by simp) (Or.inl rfl)).1,
   (create_evidence_validation cipher0 key0 emptyDB alice "AG" "C7" "theft" "I1" "B7" "locker"
      "2024-01-01T00:00:00Z" "desc" none [(zipFile, List.replicate 12 0, "z.bin")]
      "2024-01-02T00:00:00+00:00" zipFile rfl rfl (by simp) (Or.inl rfl)).2⟩

/-! ## Inversion lemmas: what a successful endpoint run did to the store -/

theorem foldl_addEvidenceFile_fields (C : CipherModel) (key : List Nat) (evId : Nat) :
    ∀ (files : List (UploadFile × List Nat × String)) (acc : DB × List Json),
      ((files.foldl (addEvidenceFile C key evId) acc).1.transfers = acc.1.transfers) ∧
      ((files.foldl (addEvidenceFile C key evId) acc).1.auditLogs = acc.1.auditLogs) ∧
      ((files.foldl (addEvidenceFile C key evId) acc).1.evidences = acc.1.evidences) ∧
      ((files.foldl (addEvidenceFile C key evId) acc).1.analyses = acc.1.analyses) ∧
      ((files.foldl (addEvidenceFile C key evId) acc).1.custodies = acc.1.custodies) ∧
      ((files.foldl (addEvidenceFile C key evId) acc).1.nextEvidenceId = acc.1.nextEvidenceId) ∧
      ((files.foldl (addEvidenceFile C key evId) acc).1.nextAuditId = acc.1.nextAuditId) := by
  intro files
  induction files with
  | nil => intro acc; exact ⟨rfl, rfl, rfl, rfl, rfl, rfl, rfl⟩
  | cons g gs ih =>
      intro acc
      obtain ⟨db, ds⟩ := acc
      simp only [List.foldl_cons]
      have h := ih (addEvidenceFile C key evId (db, ds) g)
      exact ⟨h.1.trans rfl, h.2.1.trans rfl, h.2.2.1.trans rfl, h.2.2.2.1.trans rfl,
        h.2.2.2.2.1.trans rfl, h.2.2.2.2.2.1.trans rfl, h.2.2.2.2.2.2.trans rfl⟩

theorem foldl_addAnalysisFile_fields (C : CipherModel) (key : List Nat) (aId : Nat) :
    ∀ (files : List (UploadFile × List Nat × String)) (db : DB),
      ((files.foldl (addAnalysisFile C key aId) db).transfers = db.transfers) ∧
      ((files.foldl (addAnalysisFile C key aId) db).auditLogs = db.auditLogs) ∧
      ((files.foldl (addAnalysisFile C key aId) db).evidences = db.evidences) ∧
      ((files.foldl (addAnalysisFile C key aId) db).analyses = db.analyses) ∧
      ((files.foldl (addAnalysisFile C key aId) db).custodies = db.custodies) ∧
      ((files.foldl (addAnalysisFile C key aId) db).nextEvidenceId = db.nextEvidenceId) ∧
      ((files.foldl (addAnalysisFile C key aId) db).nextAuditId = db.nextAuditId) := by
  intro files
  induction files with
  | nil => intro db; exact ⟨rfl, rfl, rfl, rfl, rfl, rfl, rfl⟩
  | cons g gs ih =>
      intro db
      simp only [List.foldl_cons]
      have h := ih (addAnalysisFile C key aId db g)
      exact ⟨h.1.trans rfl, h.2.1.trans rfl, h.2.2.1.trans rfl, h.2.2.2.1.trans rfl,
        h.2.2.2.2.1.trans rfl, h.2.2.2.2.2.1.trans rfl, h.2.2.2.2.2.2.trans rfl⟩

theorem lastAuditHash_congr {dbB dbA : DB} (h : dbB.auditLogs = dbA.auditLogs)
    (evid : Nat) : lastAuditHash dbB evid = lastAuditHash dbA evid := by
  unfold lastAuditHash
  rw [h]

theorem appendAudit_row_spec (dbB dbA : DB) (evid actor : Nat) (action : String)
    (details : Json) (prev : Option String) (ts : String) (pv : String)
    (hLog : dbB.auditLogs = dbA.auditLogs)
    (hprev : prev.getD "" = pv) :
    ∃ row, (appendAudit dbB evid actor action details prev ts).auditLogs =
        dbA.auditLogs ++ [row] ∧
      row.evidence_id = evid ∧ row.action = action ∧ row.actor_user_id = actor ∧
      row.prev_hash_hex = pv ∧
      row.entry_hash_hex = compute_entry_hash row.prev_hash_hex (entryDataOf row) :=
  ⟨auditRowOf dbB evid actor action details prev ts,
   by simp [appendAudit, hLog], rfl, rfl, rfl, hprev, rfl⟩

theorem request_transfer_ok_inv (db : DB) (u : User) (evid toId : Nat) (r ts : String)
    (db' : DB) (tr : Transfer)
    (h : request_transfer db u evid toId r ts = .ok (db', tr)) :
    (∃ e ∈ db.evidences, e.id = evid) ∧
    db.transfers.find? (fun x => x.evidence_id == evid && x.status == .PENDING) = none ∧
    tr.evidence_id = evid ∧ tr.status = .PENDING ∧
    db'.transfers = db.transfers ++ [tr] ∧
    db'.evidences = db.evidences ∧ db'.analyses = db.analyses ∧
    db'.custodies = db.custodies ∧
    db'.nextEvidenceId = db.nextEvidenceId ∧
    (∃ row, db'.auditLogs = db.auditLogs ++ [row] ∧ row.evidence_id = evid ∧
      row.prev_hash_hex = lastAuditHash db evid ∧
      row.entry_hash_hex = compute_entry_hash row.prev_hash_hex (entryDataOf row)) := by
  unfold request_transfer at h
  split at h
  · exact absurd h (by simp)
  next e he =>
    split at h
    · exact absurd h (by simp)
    next c hc =>
      split at h
      · exact absurd h (by simp)
      next hcan =>
        split at h
        · exact absurd h (by simp)
        next recip hrecip =>
          split at h
          next t0 hmem => exact absurd h (by simp)
          next hpend =>
            rw [Except.ok.injEq, Prod.mk.injEq] at h
            obtain ⟨hdb, htr⟩ := h
            subst hdb
            subst htr
            refine ⟨⟨e, List.mem_of_find?_eq_some he, by simpa using List.find?_some he⟩,
              hpend, rfl, rfl, rfl, rfl, rfl, rfl, rfl, ⟨_, rfl, rfl, rfl, rfl⟩⟩

theorem accept_transfer_ok_inv (db : DB) (u : User) (tid : Nat) (ts : String)
    (db' : DB) (tr : Transfer)
    (h : accept_transfer db u tid ts = .ok (db', tr)) :
    (∃ t0 ∈ db.transfers, tr = { t0 with status := .ACCEPTED, accepted_at_utc := some ts }) ∧
    tr.status = .ACCEPTED ∧
    db'.transfers = updateFirst (fun x => x.id == tid) (fun _ => tr) db.transfers ∧
    db'.evidences = db.evidences ∧ db'.analyses = db.analyses ∧
    db'.nextEvidenceId = db.nextEvidenceId ∧
    (∃ row, db'.auditLogs = db.auditLogs ++ [row] ∧ row.evidence_id = tr.evidence_id ∧
      row.prev_hash_hex = lastAuditHash db tr.evidence_id ∧
      row.entry_hash_hex = compute_entry_hash row.prev_hash_hex (entryDataOf row)) := by
  unfold accept_transfer at h
  dsimp only at h
  split at h
  · exact absurd h (by simp)
  next t0 ht0 =>
    split at h
    · exact absurd h (by simp)
    next hcan =>
      split at h
      · exact absurd h (by simp)
      next hpend =>
        split at h
        next c hc =>
          rw [Except.ok.injEq, Prod.mk.injEq] at h
          obtain ⟨hdb, htr⟩ := h
          subst hdb
          subst htr
          exact ⟨⟨t0, List.mem_of_find?_eq_some ht0, rfl⟩, rfl, rfl, rfl, rfl, rfl,
            ⟨_, rfl, rfl, rfl, rfl⟩⟩
        next hc =>
          rw [Except.ok.injEq, Prod.mk.injEq] at h
          obtain ⟨hdb, htr⟩ := h
          subst hdb
          subst htr
          exact ⟨⟨t0, List.mem_of_find?_eq_some ht0, rfl⟩, rfl, rfl, rfl, rfl, rfl,
            ⟨_, rfl, rfl, rfl, rfl⟩⟩

theorem cancel_transfer_ok_inv (db : DB) (u : User) (tid : Nat) (ts : String)
    (db' : DB) (tr : Transfer)
    (h : cancel_transfer db u tid ts = .ok (db', tr)) :
    (∃ t0 ∈ db.transfers, tr = { t0 with status := .CANCELLED }) ∧
    tr.status = .CANCELLED ∧
    db'.transfers = updateFirst (fun x => x.id == tid) (fun _ => tr) db.transfers ∧
    db'.evidences = db.evidences ∧ db'.analyses = db.analyses ∧
    db'.custodies = db.custodies ∧
    db'.nextEvidenceId = db.nextEvidenceId ∧
    (∃ row, db'.auditLogs = db.auditLogs ++ [row] ∧ row.evidence_id = tr.evidence_id ∧
      row.prev_hash_hex = lastAuditHash db tr.evidence_id ∧
      row.entry_hash_hex = compute_entry_hash row.prev_hash_hex (entryDataOf row)) := by
  unfold cancel_transfer at h
  dsimp only at h
  split at h
  · exact absurd h (by simp)
  next t0 ht0 =>
    split at h
    · exact absurd h (by simp)
    next hfrom =>
      split at h
      · exact absurd h (by simp)
      next hpend =>
        rw [Except.ok.injEq, Prod.mk.injEq] at h
        obtain ⟨hdb, htr⟩ := h
        subst hdb
        subst htr
        exact ⟨⟨t0, List.mem_of_find?_eq_some ht0, rfl⟩, rfl, rfl, rfl, rfl, rfl, rfl,
          ⟨_, rfl, rfl, rfl, rfl⟩⟩

theorem reject_transfer_ok_inv (db : DB) (u : User) (tid : Nat) (ts : String)
    (db' : DB) (tr : Transfer)
    (h : reject_transfer db u tid ts = .ok (db', tr)) :
    (∃ t0 ∈ db.transfers, tr = { t0 with status := .CANCELLED }) ∧
    tr.status = .CANCELLED ∧
    db'.transfers = updateFirst (fun x => x.id == tid) (fun _ => tr) db.transfers ∧
    db'.evidences = db.evidences ∧ db'.analyses = db.analyses ∧
    db'.custodies = db.custodies ∧
    db'.nextEvidenceId = db.nextEvidenceId ∧
    (∃ row, db'.auditLogs = db.auditLogs ++ [row] ∧ row.evidence_id = tr.evidence_id ∧
      row.prev_hash_hex = lastAuditHash db tr.evidence_id ∧
      row.entry_hash_hex = compute_entry_hash row.prev_hash_hex (entryDataOf row)) := by
  unfold reject_transfer at h
  dsimp only at h
  split at h
  · exact absurd h (by simp)
  next t0 ht0 =>
    split at h
    · exact absurd h (by simp)
    next hcan =>
      split at h
      · exact absurd h (by simp)
      next hpend =>
        rw [Except.ok.injEq, Prod.mk.injEq] at h
        obtain ⟨hdb, htr⟩ := h
        subst hdb
        subst htr
        exact ⟨⟨t0, List.mem_of_find?_eq_some ht0, rfl⟩, rfl, rfl, rfl, rfl, rfl, rfl,
          ⟨_, rfl, rfl, rfl, rfl⟩⟩

theorem create_evidence_ok_inv (C : CipherModel) (key : List Nat) (db : DB) (u : User)
    (agency case_no offense item_no badge_no location collected_at description : String)
    (evidence_name : Option String) (files : List (UploadFile × List Nat × String))
    (ts : String) (db' : DB) (ev : Evidence)
    (h : create_evidence C key db u agency case_no offense item_no badge_no location
        collected_at description evidence_name files ts = .ok (db', ev)) :
    ev.id = db.nextEvidenceId ∧
    db'.evidences = db.evidences ++ [ev] ∧
    db'.transfers = db.transfers ∧ db'.analyses = db.analyses ∧
    db'.nextEvidenceId = db.nextEvidenceId + 1 ∧
    (∃ row, db'.auditLogs = db.auditLogs ++ [row] ∧ row.evidence_id = db.nextEvidenceId ∧
      row.action = "EVIDENCE_CREATED" ∧ row.actor_user_id = u.id ∧
      row.prev_hash_hex = "" ∧
      row.entry_hash_hex = compute_entry_hash row.prev_hash_hex (entryDataOf row)) := by
  unfold create_evidence at h
  dsimp only at h
  split at h
  · exact absurd h (by simp)
  split at h
  · exact absurd h (by simp)
  split at h
  · exact absurd h (by simp)
  split at h
  next e he => exact absurd h (by simp)
  next hval =>
    split at h
    · exact absurd h (by simp)
    split at h
    next e he => exact absurd h (by simp)
    next hid =>
      rw [Except.ok.injEq, Prod.mk.injEq] at h
      obtain ⟨hdb, hev⟩ := h
      subst hdb
      have hfold := foldl_addEvidenceFile_fields C key db.nextEvidenceId files
        ({ db with
            evidences := db.evidences ++ [{
              id := db.nextEvidenceId
              evidence_id_str := agency ++ "-" ++ case_no ++ "-" ++ item_no
              evidence_name := evidence_name
              agency := agency
              case_no := case_no
              offense := offense
              item_no := item_no
              collected_by_user_id := u.id
              badge_no := badge_no
              location := location
              collected_at_utc := replaceZ collected_at
              description := description }]
            nextEvidenceId := db.nextEvidenceId + 1 }, [])
      have hTr := hfold.1
      have hLog := hfold.2.1
      have hEvs := hfold.2.2.1
      have hAna := hfold.2.2.2.1
      have hNext := hfold.2.2.2.2.2.1
      dsimp only at hTr hLog hEvs hAna hNext
      refine ⟨?_, ?_, ?_, ?_, ?_, ?_⟩
      · rw [← hev]
      · rw [← hev]
        exact hEvs
      · exact hTr
      · exact hAna
      · exact hNext
      · exact appendAudit_row_spec _ _ _ _ _ _ _ _ _ hLog rfl

theorem download_file_ok_inv (C : CipherModel) (key : List Nat) (db : DB) (u : User)
    (evid fid : Nat) (ts : String) (db' : DB) (data : List Nat)
    (h : download_file C key db u evid fid ts = .ok (db', data)) :
    (∃ e ∈ db.evidences, e.id = evid) ∧
    (∃ f, db.evidenceFiles.find? (fun x => x.id == fid && x.evidence_id == evid) = some f ∧
      compute_sha256 data = f.sha256_hex) ∧
    db'.transfers = db.transfers ∧ db'.evidences = db.evidences ∧
    db'.analyses = db.analyses ∧ db'.custodies = db.custodies ∧
    db'.nextEvidenceId = db.nextEvidenceId ∧
    (∃ row, db'.auditLogs = db.auditLogs ++ [row] ∧ row.evidence_id = evid ∧
      row.action = "FILE_DOWNLOADED" ∧ row.actor_user_id = u.id ∧
      row.prev_hash_hex = lastAuditHash db evid ∧
      row.entry_hash_hex = compute_entry_hash row.prev_hash_hex (entryDataOf row)) := by
  unfold download_file at h
  dsimp only at h
  split at h
  · exact absurd h (by simp)
  next e he =>
    split at h
    · exact absurd h (by simp)
    next f hf =>
      split at h
      · exact absurd h (by simp)
      next hcan =>
        split at h
        · exact absurd h (by simp)
        · exact absurd h (by simp)
        next data0 hdec =>
          split at h
          · exact absurd h (by simp)
          next hhash =>
            rw [Except.ok.injEq, Prod.mk.injEq] at h
            obtain ⟨hdb, hdata⟩ := h
            subst hdb
            subst hdata
            refine ⟨⟨e, List.mem_of_find?_eq_some he, by simpa using List.find?_some he⟩,
              ⟨f, hf, by simpa using hhash⟩, rfl, rfl, rfl, rfl, rfl,
              ⟨_, rfl, rfl, rfl, rfl, rfl, rfl⟩⟩

theorem create_analysis_ok_inv (C : CipherModel) (key : List Nat) (db : DB) (u : User)
    (evid : Nat) (ai ab ro pl de : String)
    (files : List (UploadFile × List Nat × String)) (ts : String)
    (db' : DB) (an : Analysis)
    (h : create_analysis C key db u evid ai ab ro pl de files ts = .ok (db', an)) :
    (∃ e ∈ db.evidences, e.id = evid) ∧
    an.evidence_id = evid ∧
    db'.transfers = db.transfers ∧ db'.evidences = db.evidences ∧
    db'.analyses = db.analyses ++ [an] ∧ db'.custodies = db.custodies ∧
    db'.nextEvidenceId = db.nextEvidenceId ∧
    (∃ row, db'.auditLogs = db.auditLogs ++ [row] ∧ row.evidence_id = evid ∧
      row.action = "ANALYSIS_CREATED" ∧ row.actor_user_id = u.id ∧
      row.prev_hash_hex = lastAuditHash db evid ∧
      row.entry_hash_hex = compute_entry_hash row.prev_hash_hex (entryDataOf row)) := by
  unfold create_analysis at h
  dsimp only at h
  split at h
  · exact absurd h (by simp)
  next e he =>
    split at h
    · exact absurd h (by simp)
    next hcust =>
      split at h
      · exact absurd h (by simp)
      next hiso =>
        rw [Except.ok.injEq, Prod.mk.injEq] at h
        obtain ⟨hdb, han⟩ := h
        subst hdb
        have hfold := foldl_addAnalysisFile_fields C key db.nextAnalysisId files
          ({ db with
              analyses := db.analyses ++ [{
                id := db.nextAnalysisId
                evidence_id := evid
                analysis_at_utc := replaceZ ai
                analysis_by := ab
                role := ro
                place_of_analysis := pl
                description := de
                created_by_user_id := u.id }]
              nextAnalysisId := db.nextAnalysisId + 1 })
        have hTr := hfold.1
        have hLog := hfold.2.1
        have hEvs := hfold.2.2.1
        have hAna := hfold.2.2.2.1
        have hCus := hfold.2.2.2.2.1
        have hNext := hfold.2.2.2.2.2.1
        dsimp only at hTr hLog hEvs hAna hCus hNext
        refine ⟨⟨e, List.mem_of_find?_eq_some he, by simpa using List.find?_some he⟩,
          ?_, ?_, ?_, ?_, ?_, ?_, ?_⟩
        · rw [← han]
        · exact hTr
        · exact hEvs
        · rw [← han]
          exact hAna
        · exact hCus
        · exact hNext
        · exact appendAudit_row_spec _ _ _ _ _ _ _ _ _ hLog
            (by simpa using lastAuditHash_congr hLog evid)

/-! ## C3: at most one PENDING transfer per evidence item -/

theorem updateFirst_mem (p : α → Bool) (f : α → α) :
    ∀ (l : List α) (x : α), x ∈ updateFirst p f l → x ∈ l ∨ ∃ y ∈ l, x = f y := by
  intro l
  induction l with
  | nil => intro x hx; simp [updateFirst] at hx
  | cons y ys ih =>
      intro x hx
      by_cases hy : p y = true
      · simp only [updateFirst, hy, if_true] at hx
        rcases List.mem_cons.mp hx with h | h
        · exact Or.inr ⟨y, List.mem_cons_self y ys, h⟩
        · exact Or.inl (List.mem_cons_of_mem _ h)
      · have hyf : p y = false := by simpa using hy
        simp only [updateFirst, hyf, Bool.false_eq_true, if_false] at hx
        rcases List.mem_cons.mp hx with h | h
        · exact Or.inl (by simp [h])
        · rcases ih x h with h1 | ⟨z, hz, hzz⟩
          · exact Or.inl (List.mem_cons_of_mem _ h1)
          · exact Or.inr ⟨z, List.mem_cons_of_mem _ hz, hzz⟩

theorem pairwise_updateFirst {R : α → α → Prop} (p : α → Bool) (f : α → α)
    (hfl : ∀ a b, R (f a) b) (hfr : ∀ a b, R a (f b)) :
    ∀ l : List α, l.Pairwise R → (updateFirst p f l).Pairwise R := by
  intro l
  induction l with
  | nil => intro h; exact h
  | cons y ys ih =>
      intro h
      rcases List.pairwise_cons.mp h with ⟨hy, hys⟩
      by_cases hp : p y = true
      · simp only [updateFirst, hp, if_true]
        exact List.pairwise_cons.mpr ⟨fun b hb => hfl y b, hys⟩
      · have hpf : p y = false := by simpa using hp
        simp only [updateFirst, hpf, Bool.false_eq_true, if_false]
        refine List.pairwise_cons.mpr ⟨?_, ih hys⟩
        intro b hb
        rcases updateFirst_mem p f ys b hb with h1 | ⟨z, hz, hzz⟩
        · exact hy b h1
        · rw [hzz]
          exact hfr y z

theorem atMostOnePending_transfers_eq {db db' : DB} (h : db'.transfers = db.transfers) :
    atMostOnePending db → atMostOnePending db' := by
  unfold atMostOnePending
  rw [h]
  exact id

theorem atMostOnePending_update_nonpending {db db' : DB} (tid : Nat) (tr : Transfer)
    (hst : tr.status ≠ .PENDING)
    (h : db'.transfers = updateFirst (fun x => x.id == tid) (fun _ => tr) db.transfers) :
    atMostOnePending db → atMostOnePending db' := by
  unfold atMostOnePending
  rw [h]
  exact pairwise_updateFirst _ _ (fun a b hcon => hst hcon.1) (fun a b hcon => hst hcon.2.1) _

theorem atMostOnePending_append (db db' : DB) (tr : Transfer) (evid : Nat)
    (htr : tr.evidence_id = evid)
    (hfind : db.transfers.find? (fun x => x.evidence_id == evid && x.status == .PENDING) = none)
    (h : db'.transfers = db.transfers ++ [tr]) :
    atMostOnePending db → atMostOnePending db' := by
  intro hp
  unfold atMostOnePending at hp ⊢
  rw [h, List.pairwise_append]
  refine ⟨hp, List.pairwise_singleton _ _, ?_⟩
  intro a ha b hb
  rw [List.mem_singleton] at hb
  subst hb
  rintro ⟨ha1, _, hab⟩
  have hne := List.find?_eq_none.mp hfind a ha
  apply hne
  simp [ha1, hab.trans htr]

/-- C3: every reachable-state step preserves the at-most-one-PENDING
invariant — accept/cancel/reject only move an existing PENDING transfer to
a terminal status — and request_transfer against an existing PENDING
transfer always fails, inserts no row, and (when every earlier guard
passes) fails precisely with the 400 conflict error. -/
theorem at_most_one_pending_invariant (C : CipherModel) (key : List Nat) (db : DB)
    (hp : atMostOnePending db) :
    (∀ op, atMostOnePending (applyOp C key db op)) ∧
    (∀ u evid toId reason ts t,
      db.transfers.find? (fun x => x.evidence_id == evid && x.status == .PENDING) = some t →
      (∃ err, request_transfer db u evid toId reason ts = .error err) ∧
      applyOp C key db (.opRequestTransfer u evid toId reason ts) = db ∧
      (∀ c, db.custodies.find? (fun x => x.evidence_id == evid) = some c →
        can_request_transfer u c = true →
        (db.evidences.find? (fun e => e.id == evid)).isSome = true →
        (db.users.find? (fun x => x.id == toId)).isSome = true →
        request_transfer db u evid toId reason ts =
          .error (.badRequest "Pending transfer already exists for this evidence"))) := by
  constructor
  · intro op
    cases op with
    | opCreateEvidence uu ag cn off it bn loc ca de en fs ts =>
        cases hres : create_evidence C key db uu ag cn off it bn loc ca de en fs ts with
        | error e => simpa [applyOp, hres] using hp
        | ok pr =>
            obtain ⟨db2, ev⟩ := pr
            have hinv := create_evidence_ok_inv C key db uu ag cn off it bn loc ca de en fs ts
              db2 ev hres
            have := atMostOnePending_transfers_eq hinv.2.2.1 hp
            simpa [applyOp, hres] using this
    | opRequestTransfer uu evid toId r ts =>
        cases hres : request_transfer db uu evid toId r ts with
        | error e => simpa [applyOp, hres] using hp
        | ok pr =>
            obtain ⟨db2, tr⟩ := pr
            have hinv := request_transfer_ok_inv db uu evid toId r ts db2 tr hres
            have := atMostOnePending_append db db2 tr evid hinv.2.2.1 hinv.2.1
              hinv.2.2.2.2.1 hp
            simpa [applyOp, hres] using this
    | opAcceptTransfer uu tid ts =>
        cases hres : accept_transfer db uu tid ts with
        | error e => simpa [applyOp, hres] using hp
        | ok pr =>
            obtain ⟨db2, tr⟩ := pr
            have hinv := accept_transfer_ok_inv db uu tid ts db2 tr hres
            have := atMostOnePending_update_nonpending tid tr (by simp [hinv.2.1])
              hinv.2.2.1 hp
            simpa [applyOp, hres] using this
    | opCancelTransfer uu tid ts =>
        cases hres : cancel_transfer db uu tid ts with
        | error e => simpa [applyOp, hres] using hp
        | ok pr =>
            obtain ⟨db2, tr⟩ := pr
            have hinv := cancel_transfer_ok_inv db uu tid ts db2 tr hres
            have := atMostOnePending_update_nonpending tid tr (by simp [hinv.2.1])
              hinv.2.2.1 hp
            simpa [applyOp, hres] using this
    | opRejectTransfer uu tid ts =>
        cases hres : reject_transfer db uu tid ts with
        | error e => simpa [applyOp, hres] using hp
        | ok pr =>
            obtain ⟨db2, tr⟩ := pr
            have hinv := reject_transfer_ok_inv db uu tid ts db2 tr hres
            have := atMostOnePending_update_nonpending tid tr (by simp [hinv.2.1])
              hinv.2.2.1 hp
            simpa [applyOp, hres] using this
    | opDownloadFile uu evid fid ts =>
        cases hres : download_file C key db uu evid fid ts with
        | error e => simpa [applyOp, hres] using hp
        | ok pr =>
            obtain ⟨db2, data⟩ := pr
            have hinv := download_file_ok_inv C key db uu evid fid ts db2 data hres
            have := atMostOnePending_transfers_eq hinv.2.2.1 hp
            simpa [applyOp, hres] using this
    | opCreateAnalysis uu evid ai ab ro pl de fs ts =>
        cases hres : create_analysis C key db uu evid ai ab ro pl de fs ts with
        | error e => simpa [applyOp, hres] using hp
        | ok pr =>
            obtain ⟨db2, an⟩ := pr
            have hinv := create_analysis_ok_inv C key db uu evid ai ab ro pl de fs ts db2 an hres
            have := atMostOnePending_transfers_eq hinv.2.2.1 hp
            simpa [applyOp, hres] using this
  · intro u evid toId reason ts t hfind
    refine ⟨?_, ?_, ?_⟩
    · cases hres : request_transfer db u evid toId reason ts with
      | error e => exact ⟨e, rfl⟩
      | ok pr =>
          obtain ⟨db2, tr⟩ := pr
          have hinv := request_transfer_ok_inv db u evid toId reason ts db2 tr hres
          rw [hinv.2.1] at hfind
          exact absurd hfind (by simp)
    · cases hres : request_transfer db u evid toId reason ts with
      | error e => simp [applyOp, hres]
      | ok pr =>
          obtain ⟨db2, tr⟩ := pr
          have hinv := request_transfer_ok_inv db u evid toId reason ts db2 tr hres
          rw [hinv.2.1] at hfind
          exact absurd hfind (by simp)
    · intro c hc hcan hev hru
      obtain ⟨e, he⟩ := Option.isSome_iff_exists.mp hev
      obtain ⟨ru, hruu⟩ := Option.isSome_iff_exists.mp hru
      simp [request_transfer, he, hc, hcan, hruu, hfind]

/-- Closed witness for C3: a second transfer request on the evidence item
with a pending transfer is refused and the store is unchanged. -/
theorem at_most_one_pending_invariant_witness :
    dbRequested.transfers.find? (fun x => x.evidence_id == 1 && x.status == .PENDING) = some tReq ∧
    (∃ err, request_transfer dbRequested alice 1 2 "again" "2024-01-09T00:00:00+00:00" = .error err) ∧
    applyOp cipher0 key0 dbRequested
      (.opRequestTransfer alice 1 2 "again" "2024-01-09T00:00:00+00:00") = dbRequested := by
  have hpw : atMostOnePending dbRequested := by
    unfold atMostOnePending
    rw [show dbRequested.transfers = [tReq] from rfl]
    exact List.pairwise_singleton _ _
  exact ⟨rfl,
    ((at_most_one_pending_invariant cipher0 key0 dbRequested hpw).2 alice 1 2 "again"
      "2024-01-09T00:00:00+00:00" tReq rfl).1,
    ((at_most_one_pending_invariant cipher0 key0 dbRequested hpw).2 alice 1 2 "again"
      "2024-01-09T00:00:00+00:00" tReq rfl).2.1⟩

/-! ## C6: evidence-file download is custodian-gated, digest-checked,
audited -/

/-- C6: download_file returns 403 with the store untouched when the caller
is not the current custodian; a successful download implies the decrypted
bytes re-hash to the stored sha256_hex (a mismatch can never return data)
and appends exactly one FILE_DOWNLOADED entry chained to the item's
previous tail hash. -/
theorem download_file_spec (C : CipherModel) (key : List Nat) (db : DB) (u : User)
    (evid fid : Nat) (ts : String) (f : EvidenceFile)
    (hev : (db.evidences.find? (fun e => e.id == evid)).isSome = true)
    (hf : db.evidenceFiles.find? (fun x => x.id == fid && x.evidence_id == evid) = some f) :
    (can_download_files u (db.custodies.find? (fun c => c.evidence_id == evid)) = false →
      download_file C key db u evid fid ts =
        .error (.forbidden "Only current custodian can download files") ∧
      applyOp C key db (.opDownloadFile u evid fid ts) = db) ∧
    (∀ db' data, download_file C key db u evid fid ts = .ok (db', data) →
      compute_sha256 data = f.sha256_hex ∧
      (∃ row, db'.auditLogs = db.auditLogs ++ [row] ∧ row.evidence_id = evid ∧
        row.action = "FILE_DOWNLOADED" ∧ row.actor_user_id = u.id ∧
        row.prev_hash_hex = lastAuditHash db evid ∧
        row.entry_hash_hex = compute_entry_hash row.prev_hash_hex (entryDataOf row))) := by
  constructor
  · intro hcd
    obtain ⟨e, he⟩ := Option.isSome_iff_exists.mp hev
    have h1 : download_file C key db u evid fid ts =
        .error (.forbidden "Only current custodian can download files") := by
      simp [download_file, he, hf, hcd]
    exact ⟨h1, by simp [applyOp, h1]⟩
  · intro db' data h
    have hinv := download_file_ok_inv C key db u evid fid ts db' data h
    obtain ⟨f2, hf2, hsha⟩ := hinv.2.1
    rw [hf] at hf2
    injection hf2 with hf2
    refine ⟨by rw [hf2]; exact hsha, ?_⟩
    obtain ⟨row, h1, h2, h3, h4, h5, h6⟩ := hinv.2.2.2.2.2.2.2
    exact ⟨row, h1, h2, h3, h4, h5, h6⟩

theorem download_file_spec_witness :
    dbCreated.evidenceFiles.find? (fun x => x.id == 1 && x.evidence_id == 1) = some fileRow1 ∧
    (compute_sha256 [10, 20, 30] = fileRow1.sha256_hex ∧
     (∃ row, (applyOp cipher0 key0 dbCreated
           (.opDownloadFile alice 1 1 "2024-01-08T00:00:00+00:00")).auditLogs =
         dbCreated.auditLogs ++ [row] ∧ row.evidence_id = 1 ∧
         row.action = "FILE_DOWNLOADED" ∧ row.actor_user_id = alice.id ∧
         row.prev_hash_hex = lastAuditHash dbCreated 1 ∧
         row.entry_hash_hex = compute_entry_hash row.prev_hash_hex (entryDataOf row))) :=
  ⟨rfl,
   (download_file_spec cipher0 key0 dbCreated alice 1 1 "2024-01-08T00:00:00+00:00" fileRow1
      rfl rfl).2
     (applyOp cipher0 key0 dbCreated (.opDownloadFile alice 1 1 "2024-01-08T00:00:00+00:00"))
     [10, 20, 30] rfl⟩

/-! ## C1: chain integrity over all operation sequences -/

theorem lastHashFrom_cons (prev : String) (x : AuditLog) (xs : List AuditLog) :
    lastHashFrom prev (x :: xs) = lastHashFrom x.entry_hash_hex xs := by
  unfold lastHashFrom
  cases xs with
  | nil => rfl
  | cons y ys => rfl

theorem chainOkFrom_snoc : ∀ (l : List AuditLog) (prev : String) (e : AuditLog),
    chainOkFrom prev l = true →
    e.prev_hash_hex = lastHashFrom prev l →
    e.entry_hash_hex = compute_entry_hash e.prev_hash_hex (entryDataOf e) →
    chainOkFrom prev (l ++ [e]) = true := by
  intro l
  induction l with
  | nil =>
      intro prev e _ hprev hhash
      unfold lastHashFrom at hprev
      simp only [List.nil_append, chainOkFrom, Bool.and_eq_true, beq_iff_eq]
      exact ⟨⟨by simpa using hprev, by simpa using hhash⟩, trivial⟩
  | cons x xs ih =>
      intro prev e hok hhash2 hhash3
      rw [lastHashFrom_cons] at hhash2
      simp only [chainOkFrom, Bool.and_eq_true] at hok
      obtain ⟨⟨h1, h2⟩, h3⟩ := hok
      simp only [List.cons_append, chainOkFrom, Bool.and_eq_true]
      exact ⟨⟨h1, h2⟩, ih x.entry_hash_hex e h3 hhash2 hhash3⟩

theorem lastAuditHash_fresh (db : DB) (evid : Nat)
    (hfresh : ∀ l ∈ db.auditLogs, l.evidence_id ≠ evid) : lastAuditHash db evid = "" := by
  unfold lastAuditHash
  have hnil : db.auditLogs.filter (fun l => l.evidence_id == evid) = [] := by
    rw [List.filter_eq_nil_iff]
    intro l hl
    simpa using hfresh l hl
  rw [hnil]
  rfl

theorem DBInv_append_row {db db' : DB} {row : AuditLog}
    (hlogs : db'.auditLogs = db.auditLogs ++ [row])
    (hprev : row.prev_hash_hex = lastAuditHash db row.evidence_id)
    (hhash : row.entry_hash_hex = compute_entry_hash row.prev_hash_hex (entryDataOf row))
    (hbound : row.evidence_id < db'.nextEvidenceId)
    (hmono : db.nextEvidenceId ≤ db'.nextEvidenceId)
    (hev : ∀ e ∈ db'.evidences, e.id < db'.nextEvidenceId)
    (htr : ∀ t ∈ db'.transfers, t.evidence_id < db'.nextEvidenceId)
    (han : ∀ a ∈ db'.analyses, a.evidence_id < db'.nextEvidenceId)
    (hinv : DBInv db) : DBInv db' := by
  refine ⟨hev, htr, han, ?_, ?_⟩
  · intro l hl
    rw [hlogs] at hl
    rcases List.mem_append.mp hl with h | h
    · exact lt_of_lt_of_le (hinv.log_lt l h) hmono
    · rw [List.mem_singleton] at h
      subst h
      exact hbound
  · intro evid
    have hc := hinv.chain evid
    unfold evidLogs at hc ⊢
    rw [hlogs, List.filter_append]
    by_cases hcase : row.evidence_id = evid
    · subst hcase
      have hfil : List.filter (fun l => l.evidence_id == row.evidence_id) [row] = [row] := by
        simp
      rw [hfil]
      refine chainOkFrom_snoc _ _ _ hc ?_ hhash
      rw [hprev]
      unfold lastAuditHash lastHashFrom
      rfl
    · have hfil : List.filter (fun l => l.evidence_id == evid) [row] = [] := by
        simp [hcase]
      rw [hfil, List.append_nil]
      exact hc

theorem DBInv_applyOp (C : CipherModel) (key : List Nat) (db : DB) (op : Op)
    (hinv : DBInv db) : DBInv (applyOp C key db op) := by
  cases op with
  | opCreateEvidence uu ag cn off it bn loc ca de en fs ts =>
      cases hres : create_evidence C key db uu ag cn off it bn loc ca de en fs ts with
      | error e => simpa [applyOp, hres] using hinv
      | ok pr =>
          obtain ⟨db2, ev⟩ := pr
          have hi := create_evidence_ok_inv C key db uu ag cn off it bn loc ca de en fs ts
            db2 ev hres
          obtain ⟨hid, hevs, htrs, hans, hnext, row, hlogs, hre, _, _, hrp, hrh⟩ := hi
          have h2 : applyOp C key db (.opCreateEvidence uu ag cn off it bn loc ca de en fs ts)
              = db2 := by simp [applyOp, hres]
          rw [h2]
          have hfresh : lastAuditHash db row.evidence_id = "" := by
            apply lastAuditHash_fresh
            intro l hl
            rw [hre]
            exact Nat.ne_of_lt (hinv.log_lt l hl)
          refine DBInv_append_row hlogs (by rw [hrp, hfresh]) hrh ?_ ?_ ?_ ?_ ?_ hinv
          · rw [hre, hnext]
            omega
          · rw [hnext]
            omega
          · intro e he
            rw [hevs] at he
            rw [hnext]
            rcases List.mem_append.mp he with h | h
            · exact lt_trans (hinv.ev_lt e h) (by omega)
            · rw [List.mem_singleton] at h
              subst h
              rw [hid]
              omega
          · intro t ht
            rw [htrs] at ht
            rw [hnext]
            exact lt_trans (hinv.tr_lt t ht) (by omega)
          · intro a ha
            rw [hans] at ha
            rw [hnext]
            exact lt_trans (hinv.an_lt a ha) (by omega)
  | opRequestTransfer uu evid toId r ts =>
      cases hres : request_transfer db uu evid toId r ts with
      | error e => simpa [applyOp, hres] using hinv
      | ok pr =>
          obtain ⟨db2, tr⟩ := pr
          have hi := request_transfer_ok_inv db uu evid toId r ts db2 tr hres
          obtain ⟨⟨e, hem, hei⟩, _, htev, _, htrs, hevs, hans, _, hnext, row, hlogs, hre, hrp, hrh⟩ := hi
          have h2 : applyOp C key db (.opRequestTransfer uu evid toId r ts) = db2 := by
            simp [applyOp, hres]
          rw [h2]
          have hevlt : evid < db.nextEvidenceId := hei ▸ hinv.ev_lt e hem
          refine DBInv_append_row hlogs (by rw [hrp, hre]) hrh ?_ ?_ ?_ ?_ ?_ hinv
          · rw [hre, hnext]
            exact hevlt
          · rw [hnext]
          · intro x hx
            rw [hevs] at hx
            rw [hnext]
            exact hinv.ev_lt x hx
          · intro t ht
            rw [htrs] at ht
            rw [hnext]
            rcases List.mem_append.mp ht with h | h
            · exact hinv.tr_lt t h
            · rw [List.mem_singleton] at h
              subst h
              rw [htev]
              exact hevlt
          · intro a ha
            rw [hans] at ha
            rw [hnext]
            exact hinv.an_lt a ha
  | opAcceptTransfer uu tid ts =>
      cases hres : accept_transfer db uu tid ts with
      | error e => simpa [applyOp, hres] using hinv
      | ok pr =>
          obtain ⟨db2, tr⟩ := pr
          have hi := accept_transfer_ok_inv db uu tid ts db2 tr hres
          obtain ⟨⟨t0, ht0m, ht0e⟩, _, htrs, hevs, hans, hnext, row, hlogs, hre, hrp, hrh⟩ := hi
          have h2 : applyOp C key db (.opAcceptTransfer uu tid ts) = db2 := by
            simp [applyOp, hres]
          rw [h2]
          have htb : tr.evidence_id < db.nextEvidenceId := by
            rw [ht0e]
            exact hinv.tr_lt t0 ht0m
          refine DBInv_append_row hlogs (by rw [hrp, hre]) hrh ?_ ?_ ?_ ?_ ?_ hinv
          · rw [hre, hnext]
            exact htb
          · rw [hnext]
          · intro x hx
            rw [hevs] at hx
            rw [hnext]
            exact hinv.ev_lt x hx
          · intro t ht
            rw [htrs] at ht
            rw [hnext]
            rcases updateFirst_mem _ _ _ t ht with h | ⟨y, hy, hyy⟩
            · exact hinv.tr_lt t h
            · rw [hyy]
              exact htb
          · intro a ha
            rw [hans] at ha
            rw [hnext]
            exact hinv.an_lt a ha
  | opCancelTransfer uu tid ts =>
      cases hres : cancel_transfer db uu tid ts with
      | error e => simpa [applyOp, hres] using hinv
      | ok pr =>
          obtain ⟨db2, tr⟩ := pr
          have hi := cancel_transfer_ok_inv db uu tid ts db2 tr hres
          obtain ⟨⟨t0, ht0m, ht0e⟩, _, htrs, hevs, hans, _, hnext, row, hlogs, hre, hrp, hrh⟩ := hi
          have h2 : applyOp C key db (.opCancelTransfer uu tid ts) = db2 := by
            simp [applyOp, hres]
          rw [h2]
          have htb : tr.evidence_id < db.nextEvidenceId := by
            rw [ht0e]
            exact hinv.tr_lt t0 ht0m
          refine DBInv_append_row hlogs (by rw [hrp, hre]) hrh ?_ ?_ ?_ ?_ ?_ hinv
          · rw [hre, hnext]
            exact htb
          · rw [hnext]
          · intro x hx
            rw [hevs] at hx
            rw [hnext]
            exact hinv.ev_lt x hx
          · intro t ht
            rw [htrs] at ht
            rw [hnext]
            rcases updateFirst_mem _ _ _ t ht with h | ⟨y, hy, hyy⟩
            · exact hinv.tr_lt t h
            · rw [hyy]
              exact htb
          · intro a ha
            rw [hans] at ha
            rw [hnext]
            exact hinv.an_lt a ha
  | opRejectTransfer uu tid ts =>
      cases hres : reject_transfer db uu tid ts with
      | error e => simpa [applyOp, hres] using hinv
      | ok pr =>
          obtain ⟨db2, tr⟩ := pr
          have hi := reject_transfer_ok_inv db uu tid ts db2 tr hres
          obtain ⟨⟨t0, ht0m, ht0e⟩, _, htrs, hevs, hans, _, hnext, row, hlogs, hre, hrp, hrh⟩ := hi
          have h2 : applyOp C key db (.opRejectTransfer uu tid ts) = db2 := by
            simp [applyOp, hres]
          rw [h2]
          have htb : tr.evidence_id < db.nextEvidenceId := by
            rw [ht0e]
            exact hinv.tr_lt t0 ht0m
          refine DBInv_append_row hlogs (by rw [hrp, hre]) hrh ?_ ?_ ?_ ?_ ?_ hinv
          · rw [hre, hnext]
            exact htb
          · rw [hnext]
          · intro x hx
            rw [hevs] at hx
            rw [hnext]
            exact hinv.ev_lt x hx
          · intro t ht
            rw [htrs] at ht
            rw [hnext]
            rcases updateFirst_mem _ _ _ t ht with h | ⟨y, hy, hyy⟩
            · exact hinv.tr_lt t h
            · rw [hyy]
              exact htb
          · intro a ha
            rw [hans] at ha
            rw [hnext]
            exact hinv.an_lt a ha
  | opDownloadFile uu evid fid ts =>
      cases hres : download_file C key db uu evid fid ts with
      | error e => simpa [applyOp, hres] using hinv
      | ok pr =>
          obtain ⟨db2, data⟩ := pr
          have hi := download_file_ok_inv C key db uu evid fid ts db2 data hres
          obtain ⟨⟨e, hem, hei⟩, _, htrs, hevs, hans, _, hnext, row, hlogs, hre, _, _, hrp, hrh⟩ := hi
          have h2 : applyOp C key db (.opDownloadFile uu evid fid ts) = db2 := by
            simp [applyOp, hres]
          rw [h2]
          have hevlt : evid < db.nextEvidenceId := hei ▸ hinv.ev_lt e hem
          refine DBInv_append_row hlogs (by rw [hrp, hre]) hrh ?_ ?_ ?_ ?_ ?_ hinv
          · rw [hre, hnext]
            exact hevlt
          · rw [hnext]
          · intro x hx
            rw [hevs] at hx
            rw [hnext]
            exact hinv.ev_lt x hx
          · intro t ht
            rw [htrs] at ht
            rw [hnext]
            exact hinv.tr_lt t ht
          · intro a ha
            rw [hans] at ha
            rw [hnext]
            exact hinv.an_lt a ha
  | opCreateAnalysis uu evid ai ab ro pl de fs ts =>
      cases hres : create_analysis C key db uu evid ai ab ro pl de fs ts with
      | error e => simpa [applyOp, hres] using hinv
      | ok pr =>
          obtain ⟨db2, an⟩ := pr
          have hi := create_analysis_ok_inv C key db uu evid ai ab ro pl de fs ts db2 an hres
          obtain ⟨⟨e, hem, hei⟩, hanev, htrs, hevs, hans, _, hnext, row, hlogs, hre, _, _, hrp, hrh⟩ := hi
          have h2 : applyOp C key db (.opCreateAnalysis uu evid ai ab ro pl de fs ts) = db2 := by
            simp [applyOp, hres]
          rw [h2]
          have hevlt : evid < db.nextEvidenceId := hei ▸ hinv.ev_lt e hem
          refine DBInv_append_row hlogs (by rw [hrp, hre]) hrh ?_ ?_ ?_ ?_ ?_ hinv
          · rw [hre, hnext]
            exact hevlt
          · rw [hnext]
          · intro x hx
            rw [hevs] at hx
            rw [hnext]
            exact hinv.ev_lt x hx
          · intro t ht
            rw [htrs] at ht
            rw [hnext]
            exact hinv.tr_lt t ht
          · intro a ha
            rw [hans] at ha
            rw [hnext]
            rcases List.mem_append.mp ha with h | h
            · exact hinv.an_lt a h
            · rw [List.mem_singleton] at h
              subst h
              rw [hanev]
              exact hevlt

theorem DBInv_applyOps (C : CipherModel) (key : List Nat) :
    ∀ (ops : List Op) (db : DB), DBInv db → DBInv (applyOps C key db ops) := by
  intro ops
  induction ops with
  | nil => intro db h; exact h
  | cons op rest ih =>
      intro db h
      exact ih (applyOp C key db op) (DBInv_applyOp C key db op h)

theorem verifyWalk_of_chainOk : ∀ (l : List AuditLog) (prev : String) (seq : Nat),
    chainOkFrom prev l = true →
    (verifyWalk prev seq l).2 = true ∧
    (verifyWalk prev seq l).1.map (fun v => v.entry_valid) = List.replicate l.length true := by
  intro l
  induction l with
  | nil => intro prev seq _; exact ⟨rfl, rfl⟩
  | cons x xs ih =>
      intro prev seq hok
      simp only [chainOkFrom, Bool.and_eq_true] at hok
      obtain ⟨⟨h1, h2⟩, h3⟩ := hok
      have hih := ih x.entry_hash_hex (seq + 1) h3
      rcases hw : verifyWalk x.entry_hash_hex (seq + 1) xs with ⟨tail, tv⟩
      rw [hw] at hih
      simp only [verifyWalk, hw]
      simp [h1, h2, hih.1, hih.2, List.replicate_succ]
      exact hih.1

theorem chainOk_mem_hash : ∀ (l : List AuditLog) (prev : String),
    chainOkFrom prev l = true →
    ∀ e ∈ l, e.entry_hash_hex = compute_entry_hash e.prev_hash_hex (entryDataOf e) := by
  intro l
  induction l with
  | nil => intro prev _ e he; simp at he
  | cons x xs ih =>
      intro prev h e he
      simp only [chainOkFrom, Bool.and_eq_true, beq_iff_eq] at h
      rcases List.mem_cons.mp he with hx | hm
      · rw [hx]
        exact h.1.2
      · exact ih x.entry_hash_hex h.2 e hm

theorem chainOk_head_prev (l : List AuditLog) (prev : String)
    (h : chainOkFrom prev l = true) :
    ∀ e, l.head? = some e → e.prev_hash_hex = prev := by
  cases l with
  | nil => intro e he; simp at he
  | cons x xs =>
      intro e he
      simp only [List.head?_cons, Option.some.injEq] at he
      simp only [chainOkFrom, Bool.and_eq_true, beq_iff_eq] at h
      rw [← he]
      exact h.1.1

/-- C1: after any sequence of audit-producing operations from a
well-formed start state, chain verification of any existing evidence item
reports chain_valid = true with every entry valid; every stored entry hash
recomputes from the stored prev_hash and canonical payload, and the first
entry's prev_hash is the empty genesis string. -/
theorem chain_integrity (C : CipherModel) (key : List Nat) (ops : List Op) (db0 : DB)
    (h0 : DBInv db0) (evid : Nat)
    (hev : ((applyOps C key db0 ops).evidences.find? (fun e => e.id == evid)).isSome = true) :
    ∃ r, verify_audit_chain (applyOps C key db0 ops) evid = .ok r ∧
      r.chain_valid = true ∧
      r.verification_details.map (fun v => v.entry_valid) =
        List.replicate (evidLogs (applyOps C key db0 ops) evid).length true ∧
      (∀ l ∈ evidLogs (applyOps C key db0 ops) evid,
        l.entry_hash_hex = compute_entry_hash l.prev_hash_hex (entryDataOf l)) ∧
      (∀ l, (evidLogs (applyOps C key db0 ops) evid).head? = some l →
        l.prev_hash_hex = "") := by
  have hinv := DBInv_applyOps C key ops db0 h0
  obtain ⟨e, he⟩ := Option.isSome_iff_exists.mp hev
  have hc := hinv.chain evid
  rcases hw : verifyWalk "" 1 ((applyOps C key db0 ops).auditLogs.filter
      (fun l => l.evidence_id == evid)) with ⟨details, valid⟩
  have hvw := verifyWalk_of_chainOk (evidLogs (applyOps C key db0 ops) evid) "" 1 hc
  unfold evidLogs at hvw
  rw [hw] at hvw
  have hver : verify_audit_chain (applyOps C key db0 ops) evid = .ok {
      evidence_id := evid
      evidence_id_str := e.evidence_id_str
      chain_valid := valid
      total_entries := ((applyOps C key db0 ops).auditLogs.filter
        (fun l => l.evidence_id == evid)).length
      verification_details := details } := by
    unfold verify_audit_chain
    rw [he]
    dsimp only
    rw [hw]
  refine ⟨_, hver, hvw.1, ?_, chainOk_mem_hash _ _ hc, chainOk_head_prev _ _ hc⟩
  unfold evidLogs
  exact hvw.2

theorem DBInv_emptyDB : DBInv emptyDB := by
  constructor <;> simp [emptyDB, evidLogs, chainOkFrom]

/-- Closed witness for C1: create-then-request on the empty store; both
entries verify and the genesis prev_hash is "". -/
theorem chain_integrity_witness :
    ∃ r, verify_audit_chain (applyOps cipher0 key0 emptyDB [opCreate1, opRequest1]) 1 = .ok r ∧
      r.chain_valid = true ∧
      r.verification_details.map (fun v => v.entry_valid) =
        List.replicate (evidLogs (applyOps cipher0 key0 emptyDB [opCreate1, opRequest1]) 1).length
          true ∧
      (∀ l ∈ evidLogs (applyOps cipher0 key0 emptyDB [opCreate1, opRequest1]) 1,
        l.entry_hash_hex = compute_entry_hash l.prev_hash_hex (entryDataOf l)) ∧
      (∀ l, (evidLogs (applyOps cipher0 key0 emptyDB [opCreate1, opRequest1]) 1).head? = some l →
        l.prev_hash_hex = "") :=
  chain_integrity cipher0 key0 [opCreate1, opRequest1] emptyDB DBInv_emptyDB 1 rfl

/-! ## C2: tamper detection (corrected)

`verify_audit_chain` advances `expected_prev_hash` with the STORED
`entry_hash_hex`, and recomputes each entry hash from the STORED
`prev_hash_hex`; a mutated entry therefore fails its own hash check, but
every later entry still verifies — the invalidity does not propagate
forward. -/

theorem chainOkFrom_append : ∀ (l₁ l₂ : List AuditLog) (prev : String),
    chainOkFrom prev (l₁ ++ l₂) =
      (chainOkFrom prev l₁ && chainOkFrom (lastHashFrom prev l₁) l₂) := by
  intro l₁
  induction l₁ with
  | nil =>
      intro l₂ prev
      simp [chainOkFrom, lastHashFrom]
  | cons x xs ih =>
      intro l₂ prev
      rw [List.cons_append, lastHashFrom_cons]
      simp only [chainOkFrom, ih, Bool.and_assoc]

theorem verifyWalk_append : ∀ (l₁ l₂ : List AuditLog) (prev : String) (seq : Nat),
    verifyWalk prev seq (l₁ ++ l₂) =
      ((verifyWalk prev seq l₁).1 ++
        (verifyWalk (lastHashFrom prev l₁) (seq + l₁.length) l₂).1,
       (verifyWalk prev seq l₁).2 &&
        (verifyWalk (lastHashFrom prev l₁) (seq + l₁.length) l₂).2) := by
  intro l₁
  induction l₁ with
  | nil =>
      intro l₂ prev seq
      simp [verifyWalk, lastHashFrom]
  | cons x xs ih =>
      intro l₂ prev seq
      rw [List.cons_append, lastHashFrom_cons]
      have harith : seq + (x :: xs).length = seq + 1 + xs.length := by
        simp [List.length_cons]
        omega
      rw [harith]
      rcases hxs : verifyWalk x.entry_hash_hex (seq + 1) (xs ++ l₂) with ⟨dA, vA⟩
      rcases hx1 : verifyWalk x.entry_hash_hex (seq + 1) xs with ⟨d1, v1⟩
      have := ih l₂ x.entry_hash_hex (seq + 1)
      rw [hxs, hx1] at this
      simp only [verifyWalk, hxs, hx1]
      simp only [Prod.mk.injEq] at this
      obtain ⟨hA1, hA2⟩ := this
      rw [hA1, hA2]
      simp [Bool.and_assoc]

theorem verify_audit_chain_ok (db : DB) (evid : Nat) (e : Evidence)
    (he : db.evidences.find? (fun x => x.id == evid) = some e) :
    verify_audit_chain db evid = .ok {
      evidence_id := evid
      evidence_id_str := e.evidence_id_str
      chain_valid := (verifyWalk "" 1 (db.auditLogs.filter (fun l => l.evidence_id == evid))).2
      total_entries := (db.auditLogs.filter (fun l => l.evidence_id == evid)).length
      verification_details :=
        (verifyWalk "" 1 (db.auditLogs.filter (fun l => l.evidence_id == evid))).1 } := by
  unfold verify_audit_chain
  rw [he]

/-- C2 (amended): mutating a stored entry's action/details (so that the
recomputed hash no longer matches the stored one) makes verify_audit_chain
report that entry invalid and the aggregate chain_valid false, while every
other entry — the later ones included — is still reported valid, because
the walk compares stored hashes with stored hashes. -/
theorem tamper_detection (db : DB) (evid : Nat) (l₁ l₂ : List AuditLog) (e e' : AuditLog)
    (a' : String) (d' : Json)
    (hev : ((db.evidences.find? (fun x => x.id == evid)).isSome) = true)
    (hmut : e' = mutateLog e a' d')
    (hsplit : db.auditLogs.filter (fun l => l.evidence_id == evid) = l₁ ++ e' :: l₂)
    (horig : chainOkFrom "" (l₁ ++ e :: l₂) = true)
    (hne : compute_entry_hash e'.prev_hash_hex (entryDataOf e') ≠ e'.entry_hash_hex) :
    ∃ r, verify_audit_chain db evid = .ok r ∧ r.chain_valid = false ∧
      r.verification_details.map (fun v => v.entry_valid) =
        List.replicate l₁.length true ++ false :: List.replicate l₂.length true := by
  subst hmut
  obtain ⟨e0, he0⟩ := Option.isSome_iff_exists.mp hev
  have hver := verify_audit_chain_ok db evid e0 he0
  rw [hsplit] at hver
  rw [chainOkFrom_append, Bool.and_eq_true] at horig
  obtain ⟨hok1, hok2⟩ := horig
  simp only [chainOkFrom, Bool.and_eq_true] at hok2
  obtain ⟨⟨hep, heh⟩, hel⟩ := hok2
  rcases hwl1 : verifyWalk "" 1 l₁ with ⟨d1, v1⟩
  have hw1m := verifyWalk_of_chainOk l₁ "" 1 hok1
  rw [hwl1] at hw1m
  rcases hwl2 : verifyWalk e.entry_hash_hex (1 + l₁.length + 1) l₂ with ⟨d2, v2⟩
  have hw2m := verifyWalk_of_chainOk l₂ e.entry_hash_hex (1 + l₁.length + 1) hel
  rw [hwl2] at hw2m
  have hfalse : (e.entry_hash_hex ==
      compute_entry_hash e.prev_hash_hex (entryDataOf (mutateLog e a' d'))) = false := by
    rw [beq_eq_false_iff_ne]
    intro hh
    exact hne (by simpa only [mutateLog] using hh.symm)
  simp only [mutateLog] at hfalse
  have hstep : verifyWalk (lastHashFrom "" l₁) (1 + l₁.length) (mutateLog e a' d' :: l₂) =
      ((verifyWalk (lastHashFrom "" l₁) (1 + l₁.length) (mutateLog e a' d' :: l₂)).1,
       false) := by
    simp only [verifyWalk, mutateLog]
    rw [hwl2]
    simp [hfalse, mutateLog]
  have hmap : (verifyWalk (lastHashFrom "" l₁) (1 + l₁.length)
      (mutateLog e a' d' :: l₂)).1.map (fun v => v.entry_valid) =
      false :: List.replicate l₂.length true := by
    simp only [verifyWalk, mutateLog]
    rw [hwl2]
    simp only [List.map_cons]
    rw [hw2m.2]
    simp [hfalse]
  have happ := verifyWalk_append l₁ (mutateLog e a' d' :: l₂) "" 1
  rw [hwl1] at happ
  refine ⟨_, hver, ?_, ?_⟩
  · rw [happ]
    simp only
    rw [show (verifyWalk (lastHashFrom "" l₁) (1 + l₁.length)
        (mutateLog e a' d' :: l₂)).2 = false from congrArg Prod.snd hstep]
    simp
  · rw [happ]
    simp only [List.map_append]
    rw [hw1m.2, hmap]

set_option maxHeartbeats 4000000 in
/-- Evaluating the create-then-request build: the stored chain of
`dbRequested` in literal form, stored digests included. -/
theorem dbRequested_logs : dbRequested.auditLogs = [row1Lit, row2Lit] := by rfl

theorem origLog1_lit : origLog1 = row1Lit := by
  unfold origLog1
  rw [dbRequested_logs]
  rfl

theorem tamperedLog1_lit : tamperedLog1 = mutT := by
  unfold tamperedLog1 mutT
  rw [origLog1_lit]

theorem dbRequested_tail_lit : dbRequested.auditLogs.tail = [row2Lit] := by
  rw [dbRequested_logs]
  rfl

theorem dbTampered_logs : dbTampered.auditLogs = [mutT, row2Lit] := by
  show tamperedLog1 :: dbRequested.auditLogs.tail = [mutT, row2Lit]
  rw [tamperedLog1_lit, dbRequested_tail_lit]

theorem dbTampered_ev : dbTampered.evidences.find? (fun x => x.id == 1) = some evLit := by
  rfl

set_option maxHeartbeats 4000000 in
/-- Recomputing the genesis entry's hash from its stored prev_hash and
payload returns its stored digest. -/
theorem hash_row1_eval :
    compute_entry_hash row1Lit.prev_hash_hex (entryDataOf row1Lit) = hash1Hex := by rfl

set_option maxHeartbeats 4000000 in
/-- Recomputing the second entry's hash from its stored prev_hash and
payload returns its stored digest. -/
theorem hash_row2_eval :
    compute_entry_hash row2Lit.prev_hash_hex (entryDataOf row2Lit) = hash2Hex := by rfl

set_option maxHeartbeats 4000000 in
/-- Recomputing the tampered genesis entry's hash from its stored
prev_hash and overwritten payload. -/
theorem hash_mutT_eval :
    compute_entry_hash mutT.prev_hash_hex (entryDataOf mutT) = hashTamperedHex := by rfl

/-- The untampered two-entry chain hangs together. -/
theorem chainOk_rows : chainOkFrom "" [row1Lit, row2Lit] = true := by
  simp only [chainOkFrom, hash_row1_eval, hash_row2_eval]
  decide

/-- The verification run over the tampered store: aggregate false,
per-entry validity [false, true]. -/
theorem verifyReport_tampered : verifyReport dbTampered 1 = (false, [false, true]) := by
  have hv := verify_audit_chain_ok dbTampered 1 evLit dbTampered_ev
  unfold verifyReport
  rw [hv]
  have hfil : dbTampered.auditLogs.filter (fun l => l.evidence_id == 1) =
      [mutT, row2Lit] := by
    rw [dbTampered_logs]
    rfl
  rw [hfil]
  simp only [verifyWalk, hash_mutT_eval, hash_row2_eval]
  decide

/-- C2 counterexample: on the concrete two-entry chain produced by
create-then-request (whose stored form verifies), overwriting entry 1's
action and details makes verify_audit_chain report per-entry validity
[false, true]: the aggregate is false and entry 1 is invalid, but entry 2
— an entry after the mutated one — is still reported VALID, refuting the
claim that every later entry is reported invalid. -/
theorem tamper_forward_counterexample :
    chainOkFrom "" dbRequested.auditLogs = true ∧
    verifyReport dbTampered 1 = (false, [false, true]) := by
  constructor
  · rw [dbRequested_logs]
    exact chainOk_rows
  · exact verifyReport_tampered

/-- Closed witness for the amended C2 on the same concrete tampered
store. -/
theorem tamper_detection_witness :
    compute_entry_hash tamperedLog1.prev_hash_hex (entryDataOf tamperedLog1) ≠
      tamperedLog1.entry_hash_hex ∧
    (∃ r, verify_audit_chain dbTampered 1 = .ok r ∧ r.chain_valid = false ∧
      r.verification_details.map (fun v => v.entry_valid) =
        List.replicate ([] : List AuditLog).length true ++
          false :: List.replicate dbRequested.auditLogs.tail.length true) :=
  ⟨by rw [tamperedLog1_lit, hash_mutT_eval]; decide,
   tamper_detection dbTampered 1 [] dbRequested.auditLogs.tail origLog1 tamperedLog1
     "EVIDENCE_TAMPERED" tamperedDetails rfl rfl
     (by rw [dbTampered_logs, tamperedLog1_lit, dbRequested_tail_lit]; rfl)
     (by rw [origLog1_lit, dbRequested_tail_lit, List.nil_append]; exact chainOk_rows)
     (by rw [tamperedLog1_lit, hash_mutT_eval]; decide)⟩

end CoC

